import Mathlib

/-!
Verification of the MCP Mesh agent runtime core (Rust, `src/runtime/core`).

This file gives a shallow embedding of the runtime's pure logic:
configuration resolution (`config.rs`), the heartbeat state machine
(`heartbeat.rs`), the topology diff engine and runtime loop (`runtime.rs`),
the spec data model (`spec.rs`), and the shared handle state (`handle.rs`).
Rust `HashMap`s are embedded as association lists; wherever the Rust code
iterates a `HashMap` whose iteration order is unspecified, the embedding
takes the enumeration as an explicit argument constrained to be a
permutation of the map's entries.  `u64`/`u32`/`u16` quantities that never
overflow in the modelled paths are embedded as `Nat`.
-/

set_option maxRecDepth 10000

/-- Association list lookup: first binding of the key, mirroring `HashMap::get`
(keys are kept duplicate-free by the operations below). -/
def lookupA {α β : Type} [DecidableEq α] : List (α × β) → α → Option β
  | [], _ => none
  | (k, v) :: rest, a => if k = a then some v else lookupA rest a

/-- Association list membership test, mirroring `HashMap::contains_key`. -/
def containsA {α β : Type} [DecidableEq α] (l : List (α × β)) (a : α) : Bool :=
  (lookupA l a).isSome

/-- Association list key removal, mirroring `HashMap::remove`. -/
def eraseA {α β : Type} [DecidableEq α] : List (α × β) → α → List (α × β)
  | [], _ => []
  | (k, v) :: rest, a => if k = a then eraseA rest a else (k, v) :: eraseA rest a

/-- Association list insert-or-replace, mirroring `HashMap::insert`. -/
def insertA {α β : Type} [DecidableEq α] (l : List (α × β)) (a : α) (b : β) :
    List (α × β) :=
  eraseA l a ++ [(a, b)]

/-- Emptiness test on strings (`str::is_empty`), kept as a `decide` so that
concrete witnesses evaluate in the kernel. -/
def strEmpty (s : String) : Bool :=
  decide (s = "")

/-- Rust `str::trim`: drop leading and trailing whitespace. -/
def rustTrim (s : String) : String :=
  String.mk (((s.data.dropWhile Char.isWhitespace).reverse.dropWhile
    Char.isWhitespace).reverse)

/-- Rust `str::to_lowercase`, on the ASCII config values the resolver
handles. -/
def rustToLower (s : String) : String :=
  String.mk (s.data.map Char.toLower)

/-- Strip `pat` from the front of `l`, if it is there. -/
def dropPat : List Char → List Char → Option (List Char)
  | [], l => some l
  | _ :: _, [] => none
  | p :: ps, c :: cs => if c = p then dropPat ps cs else none

/-- Split `l` at the first occurrence of `pat`, returning the parts before
and after it. -/
def splitAtPat (pat : List Char) : List Char → Option (List Char × List Char)
  | [] =>
    match dropPat pat [] with
    | some rest => some ([], rest)
    | none => none
  | c :: cs =>
    match dropPat pat (c :: cs) with
    | some rest => some ([], rest)
    | none =>
      match splitAtPat pat cs with
      | some ab => some (c :: ab.1, ab.2)
      | none => none

/-- Configuration keys supported by MCP Mesh (`config.rs`, `enum ConfigKey`). -/
inductive ConfigKey where
  | RegistryUrl
  | HttpHost
  | HttpPort
  | Namespace
  | AgentName
  | AgentId
  | HealthInterval
  | DistributedTracingEnabled
  | RedisUrl
deriving DecidableEq, Repr

/-- Environment variable name for a config key (`ConfigKey::env_var`). -/
def ConfigKey.env_var : ConfigKey → String
  | .RegistryUrl => "MCP_MESH_REGISTRY_URL"
  | .HttpHost => "MCP_MESH_HTTP_HOST"
  | .HttpPort => "MCP_MESH_HTTP_PORT"
  | .Namespace => "MCP_MESH_NAMESPACE"
  | .AgentName => "MCP_MESH_AGENT_NAME"
  | .AgentId => "MCP_MESH_AGENT_ID"
  | .HealthInterval => "MCP_MESH_HEALTH_INTERVAL"
  | .DistributedTracingEnabled => "MCP_MESH_DISTRIBUTED_TRACING_ENABLED"
  | .RedisUrl => "REDIS_URL"

/-- Default value for a config key (`ConfigKey::default_value`). -/
def ConfigKey.default_value : ConfigKey → Option String
  | .RegistryUrl => some "http://localhost:8000"
  | .HttpHost => none
  | .HttpPort => none
  | .Namespace => some "default"
  | .AgentName => none
  | .AgentId => none
  | .HealthInterval => some "5"
  | .DistributedTracingEnabled => some "false"
  | .RedisUrl => some "redis://localhost:6379"

/-- Parse a config key from a string name (`ConfigKey::from_name`). -/
def ConfigKey.from_name (name : String) : Option ConfigKey :=
  match rustToLower name with
  | "registry_url" => some .RegistryUrl
  | "http_host" => some .HttpHost
  | "http_port" => some .HttpPort
  | "namespace" => some .Namespace
  | "agent_name" => some .AgentName
  | "agent_id" => some .AgentId
  | "health_interval" => some .HealthInterval
  | "distributed_tracing_enabled" => some .DistributedTracingEnabled
  | "redis_url" => some .RedisUrl
  | _ => none

/-- Sensitivity flag (`ConfigKey::is_sensitive`). -/
def ConfigKey.is_sensitive : ConfigKey → Bool
  | .RedisUrl => true
  | .RegistryUrl => true
  | _ => false

/-- Process environment, embedded as a partial map from variable names to
values (`std::env::var` returning `Ok` exactly on the `some` values). -/
def EnvMap : Type := String → Option String

/-- Minimal hierarchical URL value, embedding the parts of `url::Url` that
`config.rs::redact_for_logging` reads and writes for `scheme://`-style
URLs: scheme, username, optional password, host, optional port, path. -/
structure MiniUrl where
  scheme : String
  username : String
  password : Option String
  host : String
  port : Option String
  path : String
deriving DecidableEq, Repr

/-- Serialize a `MiniUrl` back to a string, as `url::Url::to_string` renders
hierarchical URLs. -/
def MiniUrl.render (u : MiniUrl) : String :=
  u.scheme ++ "://" ++
    (if strEmpty u.username && u.password.isNone then ""
     else u.username ++ (match u.password with
       | some p => ":" ++ p
       | none => "") ++ "@") ++
    u.host ++ (match u.port with
      | some p => ":" ++ p
      | none => "") ++
    u.path

/-- Split a host-and-port chunk at the first `:`, requiring a non-empty
host. -/
def parseHostPort (hp : List Char) : Option (String × Option String) :=
  match splitAtPat ([':']) hp with
  | some (h, p) =>
    if h.isEmpty then none else some (String.mk h, some (String.mk p))
  | none => if hp.isEmpty then none else some (String.mk hp, none)

/-- Parse `scheme://[user[:pass]@]host[:port][/path]`.  This embeds the
`url` crate's parser on the hierarchical URLs the config resolver handles
(registry and Redis URLs); strings without a `://` separator are rejected,
as the crate rejects them with `RelativeUrlWithoutBase`. -/
def parseMiniUrl (s : String) : Option MiniUrl :=
  match splitAtPat ([':', '/', '/']) s.data with
  | none => none
  | some (schemeChars, restChars) =>
    if schemeChars.isEmpty then none
    else
      let scheme := String.mk schemeChars
      let authPath := match splitAtPat (['/']) restChars with
        | some (auth, after) => (auth, String.mk ('/' :: after))
        | none => (restChars, "")
      let auth := authPath.1
      let path := authPath.2
      match splitAtPat (['@']) auth with
      | none =>
        match parseHostPort auth with
        | some hp => some ⟨scheme, "", none, hp.1, hp.2, path⟩
        | none => none
      | some (userinfo, hostport) =>
        match parseHostPort hostport with
        | some hp =>
          match splitAtPat ([':']) userinfo with
          | none => some ⟨scheme, String.mk userinfo, none, hp.1, hp.2, path⟩
          | some up =>
            some ⟨scheme, String.mk up.1, some (String.mk up.2), hp.1, hp.2, path⟩
        | none => none

/-- The URL-rewriting step of `redact_for_logging`: replace credentials with
`***` when a username or password is present, and replace a path other than
empty or `/` with `/***`. -/
def redactUrl (u : MiniUrl) : MiniUrl :=
  let hadCreds := !strEmpty u.username || u.password.isSome
  let u1 := if hadCreds then { u with username := "***", password := some "***" } else u
  if !strEmpty u1.path && !decide (u1.path = "/") then { u1 with path := "/***" } else u1

/-- Redact sensitive values for logging (`config.rs::redact_for_logging`):
non-sensitive values pass through; sensitive values that parse as a URL are
rewritten by `redactUrl`; anything else becomes `[REDACTED]`. -/
def redact_for_logging (key : ConfigKey) (value : String) : String :=
  if !key.is_sensitive then value
  else
    match parseMiniUrl value with
    | some u => (redactUrl u).render
    | none => "[REDACTED]"

/-- The default/auto-detect tail of `resolve_config`: `http_host` resolves to
the auto-detected IP (passed in, since detection opens a UDP socket),
otherwise the key's default value if any. -/
def resolveDefaultStep (autoIp : String) (key : ConfigKey) : Option String :=
  if key = ConfigKey.HttpHost then some autoIp
  else
    match key.default_value with
    | some d => some d
    | none => none

/-- The param-then-default tail of `resolve_config`: a non-empty caller
param wins, an empty or missing param falls through to the default step. -/
def resolveParamStep (autoIp : String) (key : ConfigKey) (param : Option String) :
    Option String :=
  match param with
  | some v => if strEmpty v then resolveDefaultStep autoIp key else some v
  | none => resolveDefaultStep autoIp key

/-- Resolve a configuration value with priority ENV > param > default
(`config.rs::resolve_config`).  `autoIp` is the result `auto_detect_external_ip`
would return this call. -/
def resolve_config (env : EnvMap) (autoIp : String) (key : ConfigKey)
    (param : Option String) : Option String :=
  match env key.env_var with
  | some v => if strEmpty v then resolveParamStep autoIp key param else some v
  | none => resolveParamStep autoIp key param

/-- String-keyed resolution for FFI (`config.rs::resolve_config_by_name`):
unknown key names yield the empty string. -/
def resolve_config_by_name (env : EnvMap) (autoIp : String) (key_name : String)
    (param : Option String) : String :=
  match ConfigKey.from_name key_name with
  | some key => (resolve_config env autoIp key param).getD ""
  | none => ""

/-- Truthy strings recognised by `resolve_config_bool` (already lowercased). -/
def boolTruthy (s : String) : Bool :=
  decide (s = "true") || decide (s = "1") || decide (s = "yes") || decide (s = "on")

/-- Falsy strings recognised by `resolve_config_bool` (already lowercased). -/
def boolFalsy (s : String) : Bool :=
  decide (s = "false") || decide (s = "0") || decide (s = "no") || decide (s = "off")

/-- The param-then-default tail of `resolve_config_bool`: a present param
wins; otherwise the key's default string is interpreted with `boolTruthy`;
no default means `false`. -/
def resolveBoolParamStep (key : ConfigKey) (param : Option Bool) : Bool :=
  match param with
  | some b => b
  | none =>
    match key.default_value with
    | some d => boolTruthy (rustToLower d)
    | none => false

/-- Resolve a boolean configuration value (`config.rs::resolve_config_bool`):
a trimmed, lowercased ENV value that is recognised wins; empty or
unrecognised ENV values fall through to the param and then the default. -/
def resolve_config_bool (env : EnvMap) (key : ConfigKey) (param : Option Bool) :
    Bool :=
  match env key.env_var with
  | some v =>
    let lower := rustToLower (rustTrim v)
    if strEmpty lower then resolveBoolParamStep key param
    else if boolTruthy lower then true
    else if boolFalsy lower then false
    else resolveBoolParamStep key param
  | none => resolveBoolParamStep key param

/-- Dependency requirement declared by a tool (`spec.rs::DependencySpec`). -/
structure DependencySpec where
  capability : String
  tags : List String
  version : Option String
deriving DecidableEq, Repr

/-- Tool/capability provided by the agent (`spec.rs::ToolSpec`). -/
structure ToolSpec where
  function_name : String
  capability : String
  version : String
  tags : List String
  description : String
  dependencies : List DependencySpec
  input_schema : Option String
  llm_filter : Option String
  llm_provider : Option String
  kwargs : Option String
deriving DecidableEq, Repr

/-- Per-pair field comparison inside `AgentRuntime::tools_are_different`:
the four key registration fields of the zipped tools. -/
def toolPairDiffers (o n : ToolSpec) : Bool :=
  !decide (o.function_name = n.function_name) || !decide (o.capability = n.capability) ||
    !decide (o.version = n.version) ||
    !decide (o.dependencies.length = n.dependencies.length)

/-- Per-pair dependency comparison inside `tools_are_different`. -/
def depPairDiffers (od nd : DependencySpec) : Bool :=
  !decide (od.capability = nd.capability) || !decide (od.tags = nd.tags) ||
    !decide (od.version = nd.version)

/-- Smart tool diff (`runtime.rs::AgentRuntime::tools_are_different`): true
iff the lengths differ, or some zipped pair differs in function_name,
capability, version or dependency count, or some zipped dependency pair
differs in capability, tags or version. -/
def tools_are_different (old new : List ToolSpec) : Bool :=
  if old.length ≠ new.length then true
  else
    (old.zip new).any fun pr =>
      toolPairDiffers pr.1 pr.2 ||
        (pr.1.dependencies.zip pr.2.dependencies).any fun dd => depPairDiffers dd.1 dd.2

/-- The runtime fields touched by `handle_update_tools`: the current
`spec.tools` and the `force_full_heartbeat` flag. -/
structure ToolsState where
  tools : List ToolSpec
  force_full_heartbeat : Bool
deriving DecidableEq, Repr

/-- Tools update with smart diffing (`runtime.rs::handle_update_tools`):
replace the tools and set `force_full_heartbeat` exactly when
`tools_are_different` holds, otherwise leave the state untouched. -/
def handle_update_tools (s : ToolsState) (new_tools : List ToolSpec) : ToolsState :=
  if tools_are_different s.tools new_tools then
    { s with tools := new_tools, force_full_heartbeat := true }
  else s

/-- Heartbeat state machine states (`heartbeat.rs::HeartbeatState`). -/
inductive HeartbeatState where
  | Unregistered
  | Registering
  | Healthy
  | Degraded
  | Reconnecting
  | ShuttingDown
deriving DecidableEq, Repr

/-- Agent health status (`events.rs::HealthStatus`). -/
inductive HealthStatus where
  | Healthy
  | Degraded
  | Unhealthy
deriving DecidableEq, Repr

/-- Result of a fast HEAD heartbeat (`registry.rs::FastHeartbeatStatus`). -/
inductive FastHeartbeatStatus where
  | NoChanges
  | TopologyChanged
  | AgentUnknown
  | RegistryError
  | NetworkError
deriving DecidableEq, Repr

/-- Map an HTTP status code to a fast-heartbeat result
(`FastHeartbeatStatus::from_status_code`). -/
def FastHeartbeatStatus.from_status_code (code : Nat) : FastHeartbeatStatus :=
  if code = 200 then .NoChanges
  else if code = 202 then .TopologyChanged
  else if code = 410 then .AgentUnknown
  else if code = 503 then .RegistryError
  else .NetworkError

/-- Next step the runtime should take (`heartbeat.rs::HeartbeatAction`).
Durations are milliseconds.  The source's `None` variant is `NoAction`
here to avoid clashing with `Option.none`. -/
inductive HeartbeatAction where
  | SendFull
  | SendFast
  | Wait (ms : Nat)
  | Retry (attempt : Nat) (backoff : Nat)
  | NoAction
deriving DecidableEq, Repr

/-- Heartbeat configuration (`heartbeat.rs::HeartbeatConfig`), durations in
milliseconds. -/
structure HeartbeatConfig where
  interval : Nat
  max_retries : Nat
  base_backoff : Nat
  max_backoff : Nat
  missed_threshold : Nat
deriving DecidableEq, Repr

/-- Defaults from `HeartbeatConfig::default`: 5 s interval, 5 retries, 1 s
base backoff, 30 s max backoff, threshold 4. -/
def HeartbeatConfig.default : HeartbeatConfig :=
  ⟨5000, 5, 1000, 30000, 4⟩

/-- Heartbeat state machine (`heartbeat.rs::HeartbeatStateMachine`).  The
`Option<Instant>` field `last_heartbeat` is abstracted to the flag
`last_heartbeat_set`; elapsed time since it is supplied by the caller of
`next_action`. -/
structure HeartbeatStateMachine where
  state : HeartbeatState
  config : HeartbeatConfig
  health_status : HealthStatus
  last_heartbeat_set : Bool
  consecutive_failures : Nat
  retry_attempt : Nat
  registered : Bool
  heartbeat_count : Nat
deriving DecidableEq, Repr

/-- Fresh state machine (`HeartbeatStateMachine::new`). -/
def HeartbeatStateMachine.new (config : HeartbeatConfig) : HeartbeatStateMachine :=
  { state := .Unregistered
    config := config
    health_status := .Healthy
    last_heartbeat_set := false
    consecutive_failures := 0
    retry_attempt := 0
    registered := false
    heartbeat_count := 0 }

/-- Whether a heartbeat is due (`should_send_heartbeat`): true when no
heartbeat was recorded yet, or `elapsed` (ms since the last one) reached
the interval. -/
def HeartbeatStateMachine.should_send_heartbeat (sm : HeartbeatStateMachine)
    (elapsed : Nat) : Bool :=
  if sm.last_heartbeat_set then decide (elapsed ≥ sm.config.interval) else true

/-- Remaining wait (`time_until_next_heartbeat`), saturating at zero. -/
def HeartbeatStateMachine.time_until_next_heartbeat (sm : HeartbeatStateMachine)
    (elapsed : Nat) : Nat :=
  if sm.last_heartbeat_set then sm.config.interval - elapsed else 0

/-- Exponential backoff (`calculate_backoff`): `base * 2 ^ attempt` capped
at `max_backoff` (the `u64` saturating arithmetic of the source never caps
below `max_backoff`, so `Nat.min` gives the same value). -/
def HeartbeatStateMachine.calculate_backoff (sm : HeartbeatStateMachine) : Nat :=
  Nat.min (sm.config.base_backoff * 2 ^ sm.retry_attempt) sm.config.max_backoff

/-- Decide the next action (`HeartbeatStateMachine::next_action`); `elapsed`
is the time in ms since `last_heartbeat` (ignored unless it is set). -/
def HeartbeatStateMachine.next_action (sm : HeartbeatStateMachine) (elapsed : Nat) :
    HeartbeatAction :=
  match sm.state with
  | .Unregistered => .SendFull
  | .Registering => .Wait 100
  | .Healthy | .Degraded =>
    if sm.should_send_heartbeat elapsed then .SendFast
    else .Wait (sm.time_until_next_heartbeat elapsed)
  | .Reconnecting => .Retry sm.retry_attempt sm.calculate_backoff
  | .ShuttingDown => .NoAction

/-- Process a fast-heartbeat result (`on_fast_heartbeat_result`), returning
the updated machine and the action the source returns. -/
def HeartbeatStateMachine.on_fast_heartbeat_result (sm : HeartbeatStateMachine)
    (status : FastHeartbeatStatus) : HeartbeatStateMachine × HeartbeatAction :=
  match status with
  | .NoChanges =>
    ({ sm with last_heartbeat_set := true, consecutive_failures := 0,
               heartbeat_count := sm.heartbeat_count + 1 },
     .Wait sm.config.interval)
  | .TopologyChanged => (sm, .SendFull)
  | .AgentUnknown =>
    ({ sm with registered := false, state := .Unregistered }, .SendFull)
  | .RegistryError | .NetworkError =>
    let sm1 := { sm with consecutive_failures := sm.consecutive_failures + 1 }
    let sm2 := if sm1.consecutive_failures ≥ sm1.config.missed_threshold then
                 { sm1 with state := .Reconnecting, retry_attempt := 0 }
               else sm1
    (sm2, .Wait sm.config.interval)

/-- Process a full-heartbeat success (`on_full_heartbeat_success`). -/
def HeartbeatStateMachine.on_full_heartbeat_success (sm : HeartbeatStateMachine) :
    HeartbeatStateMachine :=
  { sm with last_heartbeat_set := true, consecutive_failures := 0,
            retry_attempt := 0, registered := true,
            heartbeat_count := sm.heartbeat_count + 1,
            state := match sm.health_status with
              | .Healthy => .Healthy
              | .Degraded => .Degraded
              | .Unhealthy => .Degraded }

/-- Process a full-heartbeat failure (`on_full_heartbeat_failure`). -/
def HeartbeatStateMachine.on_full_heartbeat_failure (sm : HeartbeatStateMachine) :
    HeartbeatStateMachine :=
  let sm1 := { sm with consecutive_failures := sm.consecutive_failures + 1,
                       retry_attempt := sm.retry_attempt + 1 }
  if sm1.consecutive_failures ≥ sm1.config.missed_threshold then
    { sm1 with state := .Reconnecting }
  else sm1

/-- Request shutdown (`HeartbeatStateMachine::shutdown`). -/
def HeartbeatStateMachine.shutdown (sm : HeartbeatStateMachine) :
    HeartbeatStateMachine :=
  { sm with state := .ShuttingDown }

/-- Fold a list of fast-heartbeat results into the machine, discarding the
returned actions (used to state the missed-threshold property). -/
def applyFastResults (sm : HeartbeatStateMachine)
    (results : List FastHeartbeatStatus) : HeartbeatStateMachine :=
  results.foldl (fun s r => (s.on_fast_heartbeat_result r).1) sm

/-- A fast-heartbeat result counted as a connection failure. -/
def isFastErr (r : FastHeartbeatStatus) : Bool :=
  decide (r = .RegistryError) || decide (r = .NetworkError)

/-- Resolved dependency entry of a heartbeat response
(`registry.rs::ResolvedDependency`). -/
structure ResolvedDependency where
  agent_id : String
  endpoint : String
  function_name : String
  capability : String
  status : String
  ttl : Nat
deriving DecidableEq, Repr

/-- Positional dependency key (`runtime.rs::DepKey`). -/
structure DepKey where
  requesting_function : String
  dep_index : Nat
deriving DecidableEq, Repr

/-- Resolved dependency value tracked in the topology (`runtime.rs::DepValue`). -/
structure DepValue where
  capability : String
  endpoint : String
  function_name : String
  agent_id : String
deriving DecidableEq, Repr

/-- LLM tool record as carried by events (`events.rs::LlmToolInfo`, in the
canonical variant constructed by `runtime.rs::process_llm_tools_changes`,
which also carries `description`).  The registry-side record differs only
in that its `input_schema` is a JSON value; the runtime re-serializes it,
so the embedding carries the serialized string throughout. -/
structure LlmToolInfo where
  function_name : String
  capability : String
  description : String
  endpoint : String
  agent_id : String
  input_schema : Option String
deriving DecidableEq, Repr

/-- Resolved LLM provider entry of a heartbeat response
(`registry.rs::ResolvedLlmProvider`). -/
structure ResolvedLlmProvider where
  agent_id : String
  endpoint : String
  function_name : String
  model : Option String
  capability : Option String
  status : Option String
  vendor : Option String
  version : Option String
deriving DecidableEq, Repr

/-- Internal provider tracking record (`runtime.rs::TrackedProvider`). -/
structure TrackedProvider where
  function_id : String
  agent_id : String
  endpoint : String
  function_name : String
  model : Option String
deriving DecidableEq, Repr

/-- Provider info carried by `llm_provider_available` events
(`events.rs::LlmProviderInfo`, canonical variant with `vendor` as built by
`runtime.rs::process_llm_providers_changes`). -/
structure LlmProviderInfo where
  function_id : String
  agent_id : String
  endpoint : String
  function_name : String
  model : Option String
  vendor : Option String
deriving DecidableEq, Repr

/-- Events emitted by the core to the host SDK (`events.rs::MeshEvent`,
restricted to the kinds the runtime loop emits; the positional fields
`requesting_function` and `dep_index` are those the canonical constructors
in `runtime.rs` fill in). -/
inductive MeshEvent where
  | agentRegistered (agent_id : String)
  | registrationFailed (error : String)
  | dependencyAvailable (capability endpoint function_name agent_id
      requesting_function : String) (dep_index : Nat)
  | dependencyChanged (capability endpoint function_name agent_id
      requesting_function : String) (dep_index : Nat)
  | dependencyUnavailable (capability requesting_function : String) (dep_index : Nat)
  | llmToolsUpdated (function_id : String) (tools : List LlmToolInfo)
  | llmProviderAvailable (info : LlmProviderInfo)
  | shutdownEvent
deriving DecidableEq, Repr

/-- Full heartbeat response (`registry.rs::HeartbeatResponse`); the three
`HashMap` fields are embedded as association lists. -/
structure HeartbeatResponse where
  status : String
  message : String
  agent_id : String
  dependencies_resolved : List (String × List ResolvedDependency)
  llm_tools : List (String × List LlmToolInfo)
  llm_providers : List (String × ResolvedLlmProvider)
deriving DecidableEq, Repr

/-- Topology snapshot owned by the runtime (`runtime.rs::TopologyState`). -/
structure TopologyState where
  dependencies : List (DepKey × DepValue)
  llm_tools : List (String × List LlmToolInfo)
  llm_providers : List (String × TrackedProvider)
deriving DecidableEq, Repr

/-- Provider filter of `process_dependency_changes`: only `available` or
`healthy` providers enter the new dependency map. -/
def depStatusOk (p : ResolvedDependency) : Bool :=
  decide (p.status = "available") || decide (p.status = "healthy")

/-- Value projection of a resolved dependency used by
`process_dependency_changes`. -/
def depValueOf (p : ResolvedDependency) : DepValue :=
  ⟨p.capability, p.endpoint, p.function_name, p.agent_id⟩

/-- One requesting function's contribution to the new dependency map:
`providers.iter().enumerate()` starting at index `i`, keeping only
`available`/`healthy` providers. -/
def perFuncDeps (f : String) (i : Nat) :
    List ResolvedDependency → List (DepKey × DepValue)
  | [] => []
  | p :: rest =>
    (if depStatusOk p then [(⟨f, i⟩, depValueOf p)] else []) ++
      perFuncDeps f (i + 1) rest

/-- The new positional dependency map of `process_dependency_changes`, as
the entry sequence in which the source inserts into `new_deps` (keys are
pairwise distinct when the requesting-function names are). -/
def buildNewDeps (resolved : List (String × List ResolvedDependency)) :
    List (DepKey × DepValue) :=
  resolved.flatMap fun fp => perFuncDeps fp.1 0 fp.2

/-- The changed test of `process_dependency_changes`: an entry is collected
when its key is absent from the old map or its endpoint or function_name
differs from the old value. -/
def depChangedB (old : List (DepKey × DepValue)) (k : DepKey) (v : DepValue) :
    Bool :=
  match lookupA old k with
  | some ov => !decide (ov.endpoint = v.endpoint) || !decide (ov.function_name = v.function_name)
  | none => true

/-- Result of `process_dependency_changes`: updated positional topology,
updated shared capability-to-endpoint map, and the emitted events. -/
structure DepDiffResult where
  deps : List (DepKey × DepValue)
  shared : List (String × String)
  events : List MeshEvent
deriving DecidableEq, Repr

/-- Core of `runtime.rs::process_dependency_changes`.  `old` is
`self.topology.dependencies`, `shared` is the handle's flat
capability-to-endpoint map, and `newIter` is the entry sequence in which
the Rust `for (key, value) in &new_deps` loop visits the new dependency
map — an arbitrary permutation of `buildNewDeps resolved`, since `HashMap`
iteration order is unspecified.  The removal pass walks `old` in its own
iteration order; the shared map is updated by deleting each removed
value's capability and inserting each added-or-changed value's
capability-to-endpoint pair; events are all removals first, then the
added-or-changed entries in `newIter` order. -/
def process_dependency_changes (old : List (DepKey × DepValue))
    (shared : List (String × String)) (newIter : List (DepKey × DepValue)) :
    DepDiffResult :=
  let removed := old.filter fun kv => !containsA newIter kv.1
  let addedOrChanged :=
    (newIter.filter fun kv => depChangedB old kv.1 kv.2).map
      fun kv => (kv.1, kv.2, !containsA old kv.1)
  let shared1 := removed.foldl (fun s kv => eraseA s kv.2.capability) shared
  let shared2 := addedOrChanged.foldl
    (fun s kvb => insertA s kvb.2.1.capability kvb.2.1.endpoint) shared1
  let deps1 := removed.foldl (fun d kv => eraseA d kv.1) old
  let deps2 := addedOrChanged.foldl (fun d kvb => insertA d kvb.1 kvb.2.1) deps1
  let evR := removed.map fun kv =>
    MeshEvent.dependencyUnavailable kv.2.capability kv.1.requesting_function
      kv.1.dep_index
  let evA := addedOrChanged.map fun kvb =>
    if kvb.2.2 then
      MeshEvent.dependencyAvailable kvb.2.1.capability kvb.2.1.endpoint
        kvb.2.1.function_name kvb.2.1.agent_id kvb.1.requesting_function
        kvb.1.dep_index
    else
      MeshEvent.dependencyChanged kvb.2.1.capability kvb.2.1.endpoint
        kvb.2.1.function_name kvb.2.1.agent_id kvb.1.requesting_function
        kvb.1.dep_index
  ⟨deps2, shared2, evR ++ evA⟩

/-- Element-wise LLM tool list comparison (`runtime.rs::tools_are_equal`). -/
def tools_are_equal (old new : List LlmToolInfo) : Bool :=
  decide (old.length = new.length) &&
    (old.zip new).all fun pr =>
      decide (pr.1.function_name = pr.2.function_name) &&
        decide (pr.1.capability = pr.2.capability) &&
        decide (pr.1.description = pr.2.description) &&
        decide (pr.1.endpoint = pr.2.endpoint) &&
        decide (pr.1.agent_id = pr.2.agent_id) &&
        decide (pr.1.input_schema = pr.2.input_schema)

/-- `runtime.rs::process_llm_tools_changes`: for each function in the
response (in the given iteration order), emit `llm_tools_updated` and
overwrite the tracked list exactly when `tools_are_equal` fails against
the tracked list; functions absent from the response are untouched. -/
def llmToolsStep (acc : List (String × List LlmToolInfo) × List MeshEvent)
    (ft : String × List LlmToolInfo) :
    List (String × List LlmToolInfo) × List MeshEvent :=
  let changed := match lookupA acc.1 ft.1 with
    | some old_tools => !tools_are_equal old_tools ft.2
    | none => true
  if changed then
    (insertA acc.1 ft.1 ft.2, acc.2 ++ [MeshEvent.llmToolsUpdated ft.1 ft.2])
  else acc

/-- `runtime.rs::process_llm_tools_changes` as a fold of `llmToolsStep`
over the response entries in iteration order. -/
def process_llm_tools_changes (llm : List (String × List LlmToolInfo))
    (resp : List (String × List LlmToolInfo)) :
    List (String × List LlmToolInfo) × List MeshEvent :=
  resp.foldl llmToolsStep (llm, [])

/-- Tracking projection of a resolved provider
(`process_llm_providers_changes`). -/
def trackedOf (function_id : String) (p : ResolvedLlmProvider) : TrackedProvider :=
  ⟨function_id, p.agent_id, p.endpoint, p.function_name, p.model⟩

/-- Event payload projection of a resolved provider
(`process_llm_providers_changes`). -/
def providerInfoOf (function_id : String) (p : ResolvedLlmProvider) :
    LlmProviderInfo :=
  ⟨function_id, p.agent_id, p.endpoint, p.function_name, p.model, p.vendor⟩

/-- `runtime.rs::process_llm_providers_changes`: for each function in the
response, emit `llm_provider_available` and overwrite the tracked provider
exactly when the endpoint or function_name differs from the tracked record
(or none was tracked); functions absent from the response are untouched. -/
def llmProvidersStep (acc : List (String × TrackedProvider) × List MeshEvent)
    (fp : String × ResolvedLlmProvider) :
    List (String × TrackedProvider) × List MeshEvent :=
  let tracked := trackedOf fp.1 fp.2
  let changed := match lookupA acc.1 fp.1 with
    | some old_p =>
      !decide (old_p.endpoint = tracked.endpoint) ||
        !decide (old_p.function_name = tracked.function_name)
    | none => true
  if changed then
    (insertA acc.1 fp.1 tracked,
     acc.2 ++ [MeshEvent.llmProviderAvailable (providerInfoOf fp.1 fp.2)])
  else acc

/-- `runtime.rs::process_llm_providers_changes` as a fold of
`llmProvidersStep` over the response entries in iteration order. -/
def process_llm_providers_changes (provs : List (String × TrackedProvider))
    (resp : List (String × ResolvedLlmProvider)) :
    List (String × TrackedProvider) × List MeshEvent :=
  resp.foldl llmProvidersStep (provs, [])

/-- `runtime.rs::process_heartbeat_response`: dependency diff, then LLM
tools, then LLM providers; events are concatenated in that order.
`newIter` is the iteration order of the `new_deps` map as in
`process_dependency_changes`. -/
def process_heartbeat_response (topo : TopologyState)
    (shared : List (String × String)) (resp : HeartbeatResponse)
    (newIter : List (DepKey × DepValue)) :
    TopologyState × List (String × String) × List MeshEvent :=
  let d := process_dependency_changes topo.dependencies shared newIter
  let lt := process_llm_tools_changes topo.llm_tools resp.llm_tools
  let lp := process_llm_providers_changes topo.llm_providers resp.llm_providers
  (⟨d.deps, lt.1, lp.1⟩, d.shared, d.events ++ lt.2 ++ lp.2)

/-- Event-kind rank implementing the batch emission order: removals, then
available/changed, then LLM tool updates, then LLM provider events. -/
def evRank : MeshEvent → Nat
  | .dependencyUnavailable .. => 0
  | .dependencyAvailable .. => 1
  | .dependencyChanged .. => 1
  | .llmToolsUpdated .. => 2
  | .llmProviderAvailable .. => 3
  | _ => 4

/-- Positional key of a dependency event, if it is one. -/
def evKey : MeshEvent → Option DepKey
  | .dependencyAvailable _ _ _ _ rf i => some ⟨rf, i⟩
  | .dependencyChanged _ _ _ _ rf i => some ⟨rf, i⟩
  | .dependencyUnavailable _ rf i => some ⟨rf, i⟩
  | _ => none

/-- Dependency payload of an available/changed event, if it is one. -/
def evDepValue : MeshEvent → Option DepValue
  | .dependencyAvailable c e f a _ _ => some ⟨c, e, f, a⟩
  | .dependencyChanged c e f a _ _ => some ⟨c, e, f, a⟩
  | _ => none

/-- Recognizer for `dependency_unavailable` events. -/
def isUnavailEv : MeshEvent → Bool
  | .dependencyUnavailable .. => true
  | _ => false

/-- Recognizer for `dependency_available` events. -/
def isAvailEv : MeshEvent → Bool
  | .dependencyAvailable .. => true
  | _ => false

/-- Recognizer for `dependency_changed` events. -/
def isChangedEv : MeshEvent → Bool
  | .dependencyChanged .. => true
  | _ => false

/-- Recognizer for `agent_registered` events. -/
def isAgentRegisteredEv : MeshEvent → Bool
  | .agentRegistered _ => true
  | _ => false

/-- Function id carried by an `llm_tools_updated` or
`llm_provider_available` event, if it is one. -/
def evFunctionId : MeshEvent → Option String
  | .llmToolsUpdated fid _ => some fid
  | .llmProviderAvailable info => some info.function_id
  | _ => none

/-- The claim-side predicate for `dependency_changed`: both maps bind the
key and the bindings differ in endpoint or function_name. -/
def bothChangedB (old new : List (DepKey × DepValue)) (k : DepKey) : Bool :=
  match lookupA old k, lookupA new k with
  | some ov, some v =>
    !decide (ov.endpoint = v.endpoint) || !decide (ov.function_name = v.function_name)
  | _, _ => false

/-- Commands the host can send to the runtime (`runtime.rs::RuntimeCommand`). -/
inductive RuntimeCommand where
  | UpdateTools (tools : List ToolSpec)
  | UpdatePort (port : Nat)
deriving DecidableEq, Repr

/-- Runtime state owned by the loop (`runtime.rs::AgentRuntime`), restricted
to the fields the loop reads and writes: the mutable spec projection, the
state machine, the topology, the shared handle map and agent id, and the
`force_full_heartbeat` flag. -/
structure AgentRuntimeState where
  spec_name : String
  spec_tools : List ToolSpec
  spec_http_port : Nat
  machine : HeartbeatStateMachine
  topology : TopologyState
  shared_deps : List (String × String)
  shared_agent_id : Option String
  force_full_heartbeat : Bool
deriving Repr

/-- Initial runtime state (`AgentRuntime::new`): fresh state machine,
default (empty) topology, no force flag. -/
def AgentRuntimeState.new (name : String) (tools : List ToolSpec) (port : Nat)
    (cfg : HeartbeatConfig) : AgentRuntimeState :=
  { spec_name := name
    spec_tools := tools
    spec_http_port := port
    machine := HeartbeatStateMachine.new cfg
    topology := ⟨[], [], []⟩
    shared_deps := []
    shared_agent_id := none
    force_full_heartbeat := false }

/-- `runtime.rs::handle_command`: tools updates go through the smart diff;
a port update sets the flag only when the port differs. -/
def handle_command (s : AgentRuntimeState) (c : RuntimeCommand) :
    AgentRuntimeState :=
  match c with
  | .UpdateTools t =>
    if tools_are_different s.spec_tools t then
      { s with spec_tools := t, force_full_heartbeat := true }
    else s
  | .UpdatePort p =>
    if s.spec_http_port ≠ p then
      { s with spec_http_port := p, force_full_heartbeat := true }
    else s

/-- `runtime.rs::send_full_heartbeat`: on success, advance the state
machine, record the agent id, process the response (emitting topology
events), and emit `agent_registered` exactly when the machine's heartbeat
count has just become 1; on failure, advance the failure path and emit
`registration_failed`.  `outcome` is the POST result (`some response` on
2xx, `none` with `errMsg` otherwise); `newIter` is the `new_deps`
iteration order for the dependency diff. -/
def send_full_heartbeat (s : AgentRuntimeState)
    (outcome : Option HeartbeatResponse) (errMsg : String)
    (newIter : List (DepKey × DepValue)) : AgentRuntimeState × List MeshEvent :=
  match outcome with
  | some resp =>
    let m := s.machine.on_full_heartbeat_success
    let pr := process_heartbeat_response s.topology s.shared_deps resp newIter
    let evs := if decide (m.heartbeat_count = 1) then
                 pr.2.2 ++ [MeshEvent.agentRegistered s.spec_name]
               else pr.2.2
    ({ s with machine := m, topology := pr.1, shared_deps := pr.2.1,
              shared_agent_id := some resp.agent_id }, evs)
  | none =>
    ({ s with machine := s.machine.on_full_heartbeat_failure },
     [MeshEvent.registrationFailed errMsg])

/-- Which arm of a `Wait`/`Retry` select fires first: the sleep timer, the
shutdown channel, or a command from the host. -/
inductive WaitWake where
  | timer
  | shutdownWake
  | commandWake (c : RuntimeCommand)
deriving Repr

/-- Environment of one iteration of the runtime loop: the non-blocking
shutdown probe, the drained commands, the elapsed time used by
`next_action`, the outcome of a fast or full heartbeat if one is sent this
iteration, the `new_deps` iteration order, and which select arm fires
during a `Wait`/`Retry` sleep. -/
structure IterInput where
  shutdownSignal : Bool
  commands : List RuntimeCommand
  elapsed : Nat
  fastOutcome : FastHeartbeatStatus
  fullOutcome : Option HeartbeatResponse
  fullErr : String
  newIter : List (DepKey × DepValue)
  wake : WaitWake
deriving Repr

/-- Result of one loop iteration: new state, events emitted, whether this
iteration's full heartbeat (if any) succeeded, and whether the loop
continues. -/
structure StepResult where
  st : AgentRuntimeState
  events : List MeshEvent
  fullSuccess : Bool
  cont : Bool
deriving Repr

/-- Apply a `Wait`/`Retry` select outcome (`tokio::select!` arms in
`AgentRuntime::run`). -/
def applyWake (s : AgentRuntimeState) (w : WaitWake) : AgentRuntimeState :=
  match w with
  | .timer => s
  | .shutdownWake => { s with machine := s.machine.shutdown }
  | .commandWake c => handle_command s c

/-- Dispatch part of one iteration of `AgentRuntime::run`, after the
shutdown probe and command drain: stop (after a best-effort unregister)
when shutting down; honor `force_full_heartbeat`; otherwise dispatch on
`next_action` — full heartbeat, fast heartbeat with an immediate full
follow-up when the machine asks for one, an interruptible wait, a backoff
retry followed by a full heartbeat, or loop exit. -/
def runtimeStepCore (s2 : AgentRuntimeState) (inp : IterInput) : StepResult :=
  if s2.machine.state = .ShuttingDown then ⟨s2, [], false, false⟩
  else if s2.force_full_heartbeat then
    let s3 := { s2 with force_full_heartbeat := false }
    let r := send_full_heartbeat s3 inp.fullOutcome inp.fullErr inp.newIter
    ⟨r.1, r.2, inp.fullOutcome.isSome, true⟩
  else
    match s2.machine.next_action inp.elapsed with
    | .SendFull =>
      let r := send_full_heartbeat s2 inp.fullOutcome inp.fullErr inp.newIter
      ⟨r.1, r.2, inp.fullOutcome.isSome, true⟩
    | .SendFast =>
      let fr := s2.machine.on_fast_heartbeat_result inp.fastOutcome
      let s3 := { s2 with machine := fr.1 }
      if fr.2 = .SendFull then
        let r := send_full_heartbeat s3 inp.fullOutcome inp.fullErr inp.newIter
        ⟨r.1, r.2, inp.fullOutcome.isSome, true⟩
      else ⟨s3, [], false, true⟩
    | .Wait _ => ⟨applyWake s2 inp.wake, [], false, true⟩
    | .Retry _ _ =>
      let s3 := applyWake s2 inp.wake
      let r := send_full_heartbeat s3 inp.fullOutcome inp.fullErr inp.newIter
      ⟨r.1, r.2, inp.fullOutcome.isSome, true⟩
    | .NoAction => ⟨s2, [], false, false⟩

/-- One iteration of `AgentRuntime::run`: the shutdown probe and command
drain, then the dispatch of `runtimeStepCore`. -/
def runtimeStep (s0 : AgentRuntimeState) (inp : IterInput) : StepResult :=
  runtimeStepCore
    (inp.commands.foldl handle_command
      (if inp.shutdownSignal then { s0 with machine := s0.machine.shutdown }
       else s0))
    inp

/-- Result of a whole run: final state, all emitted events, and the number
of successful full heartbeats performed. -/
structure RunResult where
  st : AgentRuntimeState
  events : List MeshEvent
  successes : Nat
deriving Repr

/-- Drive `AgentRuntime::run` over a list of iteration environments.  When
an iteration breaks the loop, the trailing `shutdown` event is emitted and
the rest of the inputs are unused; when the inputs are exhausted the loop
is still live and no `shutdown` event has been emitted. -/
def runtimeRun (s : AgentRuntimeState) : List IterInput → RunResult
  | [] => ⟨s, [], 0⟩
  | inp :: rest =>
    let r := runtimeStep s inp
    if r.cont then
      let rr := runtimeRun r.st rest
      ⟨rr.st, r.events ++ rr.events, (if r.fullSuccess then 1 else 0) + rr.successes⟩
    else
      ⟨r.st, r.events ++ [MeshEvent.shutdownEvent],
        if r.fullSuccess then 1 else 0⟩

/-- Capacity of the bounded event channel
(`RuntimeConfig::default().event_buffer_size`). -/
def event_buffer_size_default : Nat := 100

/-- The event-channel put operation the runtime actually performs:
`self.event_tx.send(event).await` on a bounded `tokio::sync::mpsc`
channel.  Per tokio's contract this completes with the event enqueued when
the queue is below capacity, and otherwise suspends until the receiver
drains a slot — modelled as `none`, meaning the send does not complete
without host intervention (the error on a closed channel is discarded by
the `let _ =` at every call site). -/
def mpscSendAwait (cap : Nat) (q : List MeshEvent) (e : MeshEvent) :
    Option (List MeshEvent) :=
  if q.length < cap then some (q ++ [e]) else none

/-- The drop-on-full discipline the specification prescribes for event
sends: append below capacity, silently discard the event when full. -/
def dropSendModel (cap : Nat) (q : List MeshEvent) (e : MeshEvent) :
    List MeshEvent :=
  if q.length < cap then q ++ [e] else q

/-- Observer: the event is `dependency_unavailable` at positional key `k`. -/
def unavailAt (k : DepKey) (e : MeshEvent) : Bool :=
  isUnavailEv e && decide (evKey e = some k)

/-- Observer: the event is `dependency_available` at positional key `k`. -/
def availAt (k : DepKey) (e : MeshEvent) : Bool :=
  isAvailEv e && decide (evKey e = some k)

/-- Observer: the event is `dependency_changed` at positional key `k`. -/
def changedAt (k : DepKey) (e : MeshEvent) : Bool :=
  isChangedEv e && decide (evKey e = some k)

/-- Two healthy providers of the same capability for one requesting
function (spec scenario 3), used to exhibit `new_deps` iteration orders. -/
def exResolved : List (String × List ResolvedDependency) :=
  [("f", [⟨"a1", "http://x", "fast", "c", "healthy", 0⟩,
          ⟨"a2", "http://y", "slow", "c", "healthy", 0⟩])]

/-- The reversed enumeration of `buildNewDeps exResolved`: a legitimate
iteration order of the `new_deps` hash map that visits position 1 before
position 0. -/
def exNewIterSwapped : List (DepKey × DepValue) :=
  (buildNewDeps exResolved).reverse

/-- Old topology for the shared-map shadowing scenario: two positional
keys from different requesting functions resolving to the same
capability `c`. -/
def shOld : List (DepKey × DepValue) :=
  [(⟨"f", 0⟩, ⟨"c", "e1", "g1", "a1"⟩), (⟨"g", 0⟩, ⟨"c", "e2", "g2", "a2"⟩)]

/-- Shared flat capability-to-endpoint map matching `shOld` (last writer
per batch wins). -/
def shShared : List (String × String) :=
  [("c", "e2")]

/-- Heartbeat response for the shadowing scenario: `g`'s dependency is
present and unchanged, `f`'s has disappeared. -/
def shResolved : List (String × List ResolvedDependency) :=
  [("g", [⟨"a2", "e2", "g2", "c", "available", 0⟩])]

/-- A full event queue at the default capacity. -/
def fullEventQueue : List MeshEvent :=
  List.replicate event_buffer_size_default MeshEvent.shutdownEvent

/-- A key is absent from an association list iff `lookupA` finds nothing. -/
theorem lookupA_eq_none_iff {α β : Type} [DecidableEq α] (l : List (α × β))
    (k : α) : lookupA l k = none ↔ k ∉ l.map Prod.fst := by
  induction l with
  | nil => simp [lookupA]
  | cons kv rest ih =>
    obtain ⟨a, b⟩ := kv
    by_cases h : a = k
    · subst h
      simp [lookupA]
    · simp [lookupA, h, ih, Ne.symm h]

/-- A successful `lookupA` yields a binding of the list. -/
theorem mem_of_lookupA_eq_some {α β : Type} [DecidableEq α]
    {l : List (α × β)} {k : α} {v : β} (h : lookupA l k = some v) :
    (k, v) ∈ l := by
  induction l with
  | nil => simp [lookupA] at h
  | cons kv rest ih =>
    obtain ⟨a, b⟩ := kv
    by_cases hak : a = k
    · subst hak
      simp [lookupA] at h
      simp [h]
    · simp [lookupA, hak] at h
      exact List.mem_cons_of_mem _ (ih h)

/-- With duplicate-free keys, every binding is found by `lookupA`. -/
theorem lookupA_eq_some_of_mem {α β : Type} [DecidableEq α]
    {l : List (α × β)} (hnd : (l.map Prod.fst).Nodup) {k : α} {v : β}
    (h : (k, v) ∈ l) : lookupA l k = some v := by
  induction l with
  | nil => simp at h
  | cons kv rest ih =>
    obtain ⟨a, b⟩ := kv
    simp only [List.map_cons, List.nodup_cons] at hnd
    rcases List.mem_cons.mp h with heq | hmem
    · cases heq
      simp [lookupA]
    · have hak : a ≠ k := by
        intro hak
        subst hak
        exact hnd.1 (List.mem_map.mpr ⟨(a, v), hmem, rfl⟩)
      simp [lookupA, hak, ih hnd.2 hmem]

/-- Permutations preserve key duplicate-freedom. -/
theorem nodup_keys_of_perm {α β : Type} {l l' : List (α × β)}
    (hp : l.Perm l') (hnd : (l.map Prod.fst).Nodup) :
    (l'.map Prod.fst).Nodup :=
  ((hp.map Prod.fst).nodup_iff).mp hnd

/-- With duplicate-free keys, `lookupA` is invariant under permutation. -/
theorem lookupA_eq_of_perm {α β : Type} [DecidableEq α]
    {l l' : List (α × β)} (hnd : (l.map Prod.fst).Nodup) (hp : l.Perm l')
    (k : α) : lookupA l k = lookupA l' k := by
  cases hl : lookupA l k with
  | none =>
    have : k ∉ l'.map Prod.fst := fun hmem =>
      ((lookupA_eq_none_iff l k).mp hl) ((hp.map Prod.fst).mem_iff.mpr hmem)
    exact ((lookupA_eq_none_iff l' k).mpr this).symm
  | some v =>
    exact (lookupA_eq_some_of_mem (nodup_keys_of_perm hp hnd)
      (hp.mem_iff.mp (mem_of_lookupA_eq_some hl))).symm

/-- Keyed counting is zero when the key is absent. -/
theorem countP_key_zero {α β : Type} [DecidableEq α] {l : List (α × β)}
    {k : α} (h : k ∉ l.map Prod.fst) (p : α × β → Bool) :
    l.countP (fun kv => decide (kv.1 = k) && p kv) = 0 := by
  refine List.countP_eq_zero.mpr fun kv hkv hp => ?_
  have h1 : kv.1 = k := of_decide_eq_true (Bool.and_elim_left hp)
  exact h (List.mem_map.mpr ⟨kv, hkv, h1⟩)

/-- Keyed counting over a duplicate-free association list: the count of
entries at key `k` satisfying `p` is 1 or 0 according to the binding. -/
theorem countP_keyed {α β : Type} [DecidableEq α] {l : List (α × β)}
    (hnd : (l.map Prod.fst).Nodup) (k : α) (p : α × β → Bool) :
    l.countP (fun kv => decide (kv.1 = k) && p kv) =
      (match lookupA l k with
       | some v => if p (k, v) then 1 else 0
       | none => 0) := by
  induction l with
  | nil => simp [lookupA]
  | cons kv rest ih =>
    obtain ⟨a, b⟩ := kv
    simp only [List.map_cons, List.nodup_cons] at hnd
    rw [List.countP_cons]
    by_cases hak : a = k
    · subst hak
      have hnotk : a ∉ rest.map Prod.fst := hnd.1
      rw [countP_key_zero hnotk p]
      simp [lookupA]
    · simp only [hak, decide_False, Bool.false_and, if_false, Nat.add_zero]
      rw [ih hnd.2]
      simp [lookupA, hak]


/-- A string recognised as falsy is not recognised as truthy. -/
theorem boolTruthy_eq_false_of_falsy {s : String} (h : boolFalsy s = true) :
    boolTruthy s = false := by
  unfold boolFalsy at h
  rcases (by simpa using h : ((s = "false" ∨ s = "0") ∨ s = "no") ∨ s = "off") with
    ((h1 | h1) | h1) | h1 <;> subst h1 <;> decide

/-- C5: for every config key and every (ENV, param, default) combination, a
non-empty ENV value (recognised, for the boolean variant) wins; otherwise a
non-empty caller param wins; otherwise the default wins, with `http_host`
falling back to the auto-detected IP; empty or unrecognised ENV values fall
through, and unknown key names yield the empty result. -/
theorem config_resolution_order :
    (∀ (env : EnvMap) (autoIp : String) (key : ConfigKey) (param : Option String)
        (v : String), env key.env_var = some v → v ≠ "" →
        resolve_config env autoIp key param = some v)
  ∧ (∀ (env : EnvMap) (autoIp : String) (key : ConfigKey) (p : String),
        (env key.env_var = none ∨ env key.env_var = some "") → p ≠ "" →
        resolve_config env autoIp key (some p) = some p)
  ∧ (∀ (env : EnvMap) (autoIp : String) (key : ConfigKey) (param : Option String),
        (env key.env_var = none ∨ env key.env_var = some "") →
        (param = none ∨ param = some "") →
        resolve_config env autoIp key param =
          (if key = ConfigKey.HttpHost then some autoIp else key.default_value))
  ∧ (∀ (env : EnvMap) (autoIp : String) (name : String) (param : Option String),
        ConfigKey.from_name name = none →
        resolve_config_by_name env autoIp name param = "")
  ∧ (∀ (env : EnvMap) (key : ConfigKey) (param : Option Bool) (v : String),
        env key.env_var = some v → boolTruthy (rustToLower (rustTrim v)) = true →
        resolve_config_bool env key param = true)
  ∧ (∀ (env : EnvMap) (key : ConfigKey) (param : Option Bool) (v : String),
        env key.env_var = some v → boolFalsy (rustToLower (rustTrim v)) = true →
        resolve_config_bool env key param = false)
  ∧ (∀ (env : EnvMap) (key : ConfigKey) (b : Bool) (v : String),
        env key.env_var = some v →
        boolTruthy (rustToLower (rustTrim v)) = false →
        boolFalsy (rustToLower (rustTrim v)) = false →
        resolve_config_bool env key (some b) = b)
  ∧ (∀ (env : EnvMap) (key : ConfigKey), env key.env_var = none →
        resolve_config_bool env key none =
          (match key.default_value with
           | some d => boolTruthy (rustToLower d)
           | none => false)) := by
  refine ⟨?_, ?_, ?_, ?_, ?_, ?_, ?_, ?_⟩
  · intro env autoIp key param v hv hne
    simp [resolve_config, hv, strEmpty, hne]
  · intro env autoIp key p henv hne
    rcases henv with h | h <;>
      simp [resolve_config, h, resolveParamStep, strEmpty, hne]
  · intro env autoIp key param henv hparam
    have hgoal : resolveDefaultStep autoIp key =
        (if key = ConfigKey.HttpHost then some autoIp else key.default_value) := by
      by_cases hk : key = ConfigKey.HttpHost
      · simp [resolveDefaultStep, hk]
      · cases hd : key.default_value <;> simp [resolveDefaultStep, hk, hd]
    have htail : resolveParamStep autoIp key param = resolveDefaultStep autoIp key := by
      rcases hparam with h | h <;> simp [resolveParamStep, h, strEmpty]
    rcases henv with h | h <;>
      simp [resolve_config, h, strEmpty, htail, hgoal]
  · intro env autoIp name param hname
    simp [resolve_config_by_name, hname]
  · intro env key param v hv ht
    have hvne : strEmpty (rustToLower (rustTrim v)) = false := by
      cases he : strEmpty (rustToLower (rustTrim v)) with
      | true =>
        rw [of_decide_eq_true he] at ht
        exact absurd ht (by decide)
      | false => rfl
    simp [resolve_config_bool, hv, hvne, ht]
  · intro env key param v hv hf
    have hvne : strEmpty (rustToLower (rustTrim v)) = false := by
      cases he : strEmpty (rustToLower (rustTrim v)) with
      | true =>
        rw [of_decide_eq_true he] at hf
        exact absurd hf (by decide)
      | false => rfl
    simp [resolve_config_bool, hv, hvne, boolTruthy_eq_false_of_falsy hf, hf]
  · intro env key b v hv ht hf
    cases he : strEmpty (rustToLower (rustTrim v)) with
    | true => simp [resolve_config_bool, hv, he, resolveBoolParamStep]
    | false => simp [resolve_config_bool, hv, he, ht, hf, resolveBoolParamStep]
  · intro env key hv
    cases hd : key.default_value <;>
      simp [resolve_config_bool, hv, resolveBoolParamStep, hd]

/-- Witness for C5 at concrete inputs: ENV beats param for `namespace`; an
unrecognised boolean ENV value falls through to the param. -/
theorem config_resolution_order_witness :
    resolve_config (fun x => if x = "MCP_MESH_NAMESPACE" then some "staging" else none)
        "1.2.3.4" ConfigKey.Namespace (some "production") = some "staging"
  ∧ resolve_config_bool (fun x => if x = "MCP_MESH_DISTRIBUTED_TRACING_ENABLED"
        then some "tru" else none) ConfigKey.DistributedTracingEnabled (some true) = true :=
  ⟨config_resolution_order.1 _ "1.2.3.4" ConfigKey.Namespace (some "production")
      "staging" (by rfl) (by decide),
   (config_resolution_order.2.2.2.2.2.2.1) _ ConfigKey.DistributedTracingEnabled
      true "tru" (by rfl) (by decide) (by decide)⟩

/-- Field-level description of `redactUrl`: credentials are rewritten to
`***` exactly when a username or password was present, and the path is
rewritten to `/***` exactly when it is neither empty nor `/`. -/
theorem redactUrl_fields (u : MiniUrl) :
    (redactUrl u).username =
      (if (!strEmpty u.username || u.password.isSome) = true then "***" else u.username)
  ∧ (redactUrl u).password =
      (if (!strEmpty u.username || u.password.isSome) = true then some "***"
       else u.password)
  ∧ (redactUrl u).path =
      (if (!strEmpty u.path && !decide (u.path = "/")) = true then "/***"
       else u.path)
  ∧ (redactUrl u).scheme = u.scheme
  ∧ (redactUrl u).host = u.host
  ∧ (redactUrl u).port = u.port := by
  unfold redactUrl
  by_cases hc : (!strEmpty u.username || u.password.isSome) = true <;>
    by_cases hp : (!strEmpty u.path && !decide (u.path = "/")) = true <;>
      simp [hc, hp]

/-- C8: redaction for logging — non-sensitive values pass through; a
sensitive value that parses as a URL has its credentials replaced with
`***` (when present) and any path other than empty or `/` replaced with
`/***`; a non-parseable sensitive value becomes `[REDACTED]`; and on the
concrete value `redis://u:p@h:6379/0` the credentials and path come out as
`***`. -/
theorem redaction_for_logging_spec :
    (∀ (key : ConfigKey) (v : String), key.is_sensitive = false →
        redact_for_logging key v = v)
  ∧ (∀ (key : ConfigKey) (v : String), key.is_sensitive = true →
        parseMiniUrl v = none → redact_for_logging key v = "[REDACTED]")
  ∧ (∀ (key : ConfigKey) (v : String) (u : MiniUrl), key.is_sensitive = true →
        parseMiniUrl v = some u → redact_for_logging key v = (redactUrl u).render)
  ∧ (∀ u : MiniUrl, u.username ≠ "" ∨ u.password.isSome = true →
        (redactUrl u).username = "***" ∧ (redactUrl u).password = some "***")
  ∧ (∀ u : MiniUrl, u.username = "" → u.password = none →
        (redactUrl u).username = "" ∧ (redactUrl u).password = none)
  ∧ (∀ u : MiniUrl, u.path ≠ "" → u.path ≠ "/" → (redactUrl u).path = "/***")
  ∧ (∀ u : MiniUrl, u.path = "" ∨ u.path = "/" → (redactUrl u).path = u.path)
  ∧ redact_for_logging ConfigKey.RedisUrl "redis://u:p@h:6379/0" =
      "redis://***:***@h:6379/***" := by
  refine ⟨?_, ?_, ?_, ?_, ?_, ?_, ?_, by decide⟩
  · intro key v hk
    simp [redact_for_logging, hk]
  · intro key v hk hp
    simp [redact_for_logging, hk, hp]
  · intro key v u hk hp
    simp [redact_for_logging, hk, hp]
  · intro u hcreds
    have hb : (!strEmpty u.username || u.password.isSome) = true := by
      rcases hcreds with h | h
      · simp [strEmpty, h]
      · simp [h]
    refine ⟨?_, ?_⟩
    · rw [(redactUrl_fields u).1, hb]
      simp
    · rw [(redactUrl_fields u).2.1, hb]
      simp
  · intro u hu hpw
    have hb : (!strEmpty u.username || u.password.isSome) = false := by
      simp [strEmpty, hu, hpw]
    refine ⟨?_, ?_⟩
    · rw [(redactUrl_fields u).1, hb]
      simpa using hu
    · rw [(redactUrl_fields u).2.1, hb]
      simpa using hpw
  · intro u h1 h2
    have hb : (!strEmpty u.path && !decide (u.path = "/")) = true := by
      simp [strEmpty, h1, h2]
    rw [(redactUrl_fields u).2.2.1, hb]
    simp
  · intro u h
    have hb : (!strEmpty u.path && !decide (u.path = "/")) = false := by
      rcases h with h | h <;> simp [strEmpty, h]
    rw [(redactUrl_fields u).2.2.1, hb]
    simp

/-- Witness for C8 at concrete inputs: a non-parseable sensitive value, a
pass-through non-sensitive value, and credential redaction on a parsed
URL. -/
theorem redaction_for_logging_spec_witness :
    redact_for_logging ConfigKey.RedisUrl "not-a-valid-url" = "[REDACTED]"
  ∧ redact_for_logging ConfigKey.Namespace "production" = "production"
  ∧ (redactUrl ⟨"redis", "u", some "p", "h", some "6379", "/0"⟩).username = "***" :=
  ⟨redaction_for_logging_spec.2.1 ConfigKey.RedisUrl "not-a-valid-url"
      (by decide) (by decide),
   redaction_for_logging_spec.1 ConfigKey.Namespace "production" (by decide),
   (redaction_for_logging_spec.2.2.2.1 ⟨"redis", "u", some "p", "h", some "6379", "/0"⟩
      (Or.inl (by decide))).1⟩

/-- Zipping a list with itself and testing a pairwise predicate that
rejects equal pairs finds nothing. -/
theorem zip_self_any_eq_false {α : Type} (l : List α) (f : α × α → Bool)
    (h : ∀ a, f (a, a) = false) : (l.zip l).any f = false := by
  induction l with
  | nil => rfl
  | cons a rest ih => simp [List.zip_cons_cons, h a, ih]

/-- The smart tool diff never flags a list against itself. -/
theorem tools_are_different_self (l : List ToolSpec) :
    tools_are_different l l = false := by
  unfold tools_are_different
  rw [if_neg (by simp)]
  refine zip_self_any_eq_false l _ fun a => ?_
  have h1 : toolPairDiffers a a = false := by simp [toolPairDiffers]
  have h2 : (a.dependencies.zip a.dependencies).any
      (fun dd => depPairDiffers dd.1 dd.2) = false :=
    zip_self_any_eq_false _ _ fun d => by simp [depPairDiffers]
  simp [h1, h2]

/-- C7: applying `UpdateTools(T)` twice with the same `T` sets
`force_full_heartbeat` at most once — if the diff finds a change, the
first application replaces the tools with `T` and sets the flag; the
second application is a no-op, because `tools_are_different` is reflexive
under the element-wise comparison; if the diff finds no change, both
applications leave the state untouched. -/
theorem update_tools_twice_noop (s : ToolsState) (T : List ToolSpec) :
    handle_update_tools (handle_update_tools s T) T = handle_update_tools s T
  ∧ (tools_are_different s.tools T = true →
      (handle_update_tools s T).tools = T ∧
      (handle_update_tools s T).force_full_heartbeat = true)
  ∧ (tools_are_different s.tools T = false → handle_update_tools s T = s) := by
  by_cases h : tools_are_different s.tools T = true
  · have h1 : handle_update_tools s T =
        { s with tools := T, force_full_heartbeat := true } := by
      simp [handle_update_tools, h]
    refine ⟨?_, fun _ => by simp [h1], fun hc => absurd h (by simp [hc])⟩
    rw [h1]
    simp [handle_update_tools, tools_are_different_self]
  · have h1 : handle_update_tools s T = s := by
      simp [handle_update_tools, h]
    exact ⟨by rw [h1, h1], fun hc => absurd hc h, fun _ => h1⟩

/-- Witness for C7 at a concrete input: updating from no tools to one tool
replaces the tools and sets the flag, and a second identical update is a
no-op. -/
theorem update_tools_twice_noop_witness :
    (handle_update_tools
      (handle_update_tools ⟨[], false⟩
        [⟨"greet", "greeting", "1.0.0", [], "", [], none, none, none, none⟩])
      [⟨"greet", "greeting", "1.0.0", [], "", [], none, none, none, none⟩]) =
      handle_update_tools ⟨[], false⟩
        [⟨"greet", "greeting", "1.0.0", [], "", [], none, none, none, none⟩]
  ∧ (handle_update_tools ⟨[], false⟩
      [⟨"greet", "greeting", "1.0.0", [], "", [], none, none, none, none⟩]).tools =
      [⟨"greet", "greeting", "1.0.0", [], "", [], none, none, none, none⟩]
  ∧ (handle_update_tools ⟨[], false⟩
      [⟨"greet", "greeting", "1.0.0", [], "", [], none, none, none, none⟩]).force_full_heartbeat = true :=
  ⟨(update_tools_twice_noop ⟨[], false⟩
      [⟨"greet", "greeting", "1.0.0", [], "", [], none, none, none, none⟩]).1,
   ((update_tools_twice_noop ⟨[], false⟩
      [⟨"greet", "greeting", "1.0.0", [], "", [], none, none, none, none⟩]).2.1
      (by decide)).1,
   ((update_tools_twice_noop ⟨[], false⟩
      [⟨"greet", "greeting", "1.0.0", [], "", [], none, none, none, none⟩]).2.1
      (by decide)).2⟩

/-- One fast-heartbeat error below the threshold only bumps the failure
counter. -/
theorem fast_err_step_below (sm : HeartbeatStateMachine)
    {e : FastHeartbeatStatus} (he : isFastErr e = true)
    (hlt : sm.consecutive_failures + 1 < sm.config.missed_threshold) :
    (sm.on_fast_heartbeat_result e).1 =
      { sm with consecutive_failures := sm.consecutive_failures + 1 } := by
  have hnot : ¬ sm.consecutive_failures + 1 ≥ sm.config.missed_threshold :=
    Nat.not_le.mpr hlt
  rcases (by
    revert he
    unfold isFastErr
    cases e <;> simp : e = .RegistryError ∨ e = .NetworkError) with h | h <;>
    subst h <;> simp [HeartbeatStateMachine.on_fast_heartbeat_result, hnot]

/-- One fast-heartbeat error that reaches the threshold transitions to
`Reconnecting` and resets the retry attempt. -/
theorem fast_err_step_reach (sm : HeartbeatStateMachine)
    {e : FastHeartbeatStatus} (he : isFastErr e = true)
    (hge : sm.consecutive_failures + 1 ≥ sm.config.missed_threshold) :
    (sm.on_fast_heartbeat_result e).1 =
      { sm with consecutive_failures := sm.consecutive_failures + 1,
                state := .Reconnecting, retry_attempt := 0 } := by
  rcases (by
    revert he
    unfold isFastErr
    cases e <;> simp : e = .RegistryError ∨ e = .NetworkError) with h | h <;>
    subst h <;> simp [HeartbeatStateMachine.on_fast_heartbeat_result, hge]

/-- Folding error results that stay strictly below the threshold only
accumulates the failure counter. -/
theorem applyFast_err_below (errs : List FastHeartbeatStatus) :
    ∀ sm : HeartbeatStateMachine, (∀ e ∈ errs, isFastErr e = true) →
    sm.consecutive_failures + errs.length < sm.config.missed_threshold →
    applyFastResults sm errs =
      { sm with consecutive_failures := sm.consecutive_failures + errs.length } := by
  induction errs with
  | nil =>
    intro sm _ _
    simp [applyFastResults]
  | cons e rest ih =>
    intro sm hall hlt
    simp only [List.length_cons] at hlt
    have he : isFastErr e = true := hall e (List.mem_cons_self e rest)
    have hlt1 : sm.consecutive_failures + 1 < sm.config.missed_threshold := by
      omega
    have hstep := fast_err_step_below sm he hlt1
    have hfold : applyFastResults sm (e :: rest) =
        applyFastResults (sm.on_fast_heartbeat_result e).1 rest := by
      simp [applyFastResults]
    rw [hfold, hstep,
      ih _ (fun x hx => hall x (List.mem_cons_of_mem e hx)) (by simp; omega)]
    simp only [List.length_cons]
    congr 1
    omega

/-- Folding error results whose count exactly meets the threshold ends in
`Reconnecting` with the retry attempt reset. -/
theorem applyFast_err_reach (errs : List FastHeartbeatStatus) :
    ∀ sm : HeartbeatStateMachine, (∀ e ∈ errs, isFastErr e = true) →
    0 < errs.length →
    sm.consecutive_failures + errs.length = sm.config.missed_threshold →
    (applyFastResults sm errs).state = .Reconnecting ∧
    (applyFastResults sm errs).retry_attempt = 0 := by
  induction errs with
  | nil => intro sm _ h; simp at h
  | cons e rest ih =>
    intro sm hall _ heq
    simp only [List.length_cons] at heq
    have he : isFastErr e = true := hall e (List.mem_cons_self e rest)
    have hstep : applyFastResults sm (e :: rest) =
        applyFastResults (sm.on_fast_heartbeat_result e).1 rest := by
      simp [applyFastResults]
    cases rest with
    | nil =>
      have hge : sm.consecutive_failures + 1 ≥ sm.config.missed_threshold := by
        simp at heq
        omega
      rw [hstep, fast_err_step_reach sm he hge]
      simp [applyFastResults]
    | cons e2 rest2 =>
      have hlt1 : sm.consecutive_failures + 1 < sm.config.missed_threshold := by
        simp at heq
        omega
      rw [hstep, fast_err_step_below sm he hlt1]
      exact ih _ (fun x hx => hall x (List.mem_cons_of_mem e hx)) (by simp)
        (by simp at heq ⊢; omega)

/-- C6: from a registered state (`Healthy` or `Degraded`) with zero
consecutive failures, exactly `missed_threshold` consecutive
`RegistryError`/`NetworkError` fast-heartbeat results put the machine in
`Reconnecting` with the retry attempt reset to 0, and fewer than
`missed_threshold` such results leave it out of `Reconnecting`
(the threshold is positive, as in every shipped configuration). -/
theorem missed_threshold_reconnecting (sm : HeartbeatStateMachine)
    (errs : List FastHeartbeatStatus)
    (hstate : sm.state = .Healthy ∨ sm.state = .Degraded)
    (hcf : sm.consecutive_failures = 0)
    (hthr : 1 ≤ sm.config.missed_threshold)
    (herrs : ∀ e ∈ errs, isFastErr e = true) :
    (errs.length = sm.config.missed_threshold →
      (applyFastResults sm errs).state = .Reconnecting ∧
      (applyFastResults sm errs).retry_attempt = 0)
  ∧ (errs.length < sm.config.missed_threshold →
      (applyFastResults sm errs).state ≠ .Reconnecting) := by
  constructor
  · intro hlen
    exact applyFast_err_reach errs sm herrs (by omega) (by omega)
  · intro hlen
    rw [applyFast_err_below errs sm herrs (by omega)]
    rcases hstate with h | h <;> simp [h]

/-- Witness for C6: from a freshly registered machine with the default
configuration (threshold 4), four network errors reach `Reconnecting`
with the retry attempt reset, and three do not. -/
theorem missed_threshold_reconnecting_witness :
    (applyFastResults
        (HeartbeatStateMachine.new HeartbeatConfig.default).on_full_heartbeat_success
        [.NetworkError, .NetworkError, .NetworkError, .NetworkError]).state =
      HeartbeatState.Reconnecting
  ∧ (applyFastResults
        (HeartbeatStateMachine.new HeartbeatConfig.default).on_full_heartbeat_success
        [.NetworkError, .NetworkError, .NetworkError, .NetworkError]).retry_attempt = 0
  ∧ (applyFastResults
        (HeartbeatStateMachine.new HeartbeatConfig.default).on_full_heartbeat_success
        [.NetworkError, .NetworkError, .NetworkError]).state ≠
      HeartbeatState.Reconnecting :=
  ⟨((missed_threshold_reconnecting _ _ (Or.inl (by decide)) (by decide) (by decide)
      (by decide)).1 (by decide)).1,
   ((missed_threshold_reconnecting _ _ (Or.inl (by decide)) (by decide) (by decide)
      (by decide)).1 (by decide)).2,
   (missed_threshold_reconnecting _ _ (Or.inl (by decide)) (by decide) (by decide)
      (by decide)).2 (by decide)⟩

/-- Counterexample for C4: on a full queue at the default capacity, the
runtime's event send (`event_tx.send(...).await`) does not complete — it
suspends until the host drains a slot — rather than dropping the event
and continuing as the claim states. -/
theorem event_send_blocking_counterexample :
    mpscSendAwait event_buffer_size_default fullEventQueue
      (MeshEvent.agentRegistered "a") = none
  ∧ mpscSendAwait event_buffer_size_default fullEventQueue
      (MeshEvent.agentRegistered "a") ≠
      some (dropSendModel event_buffer_size_default fullEventQueue
        (MeshEvent.agentRegistered "a")) := by
  constructor
  · decide
  · decide

/-- C4 as amended: the runtime's event sends append the event when the
queue is below capacity and otherwise suspend until the host drains the
queue; the send is never dropped on a full queue. -/
theorem event_send_await_semantics (q : List MeshEvent) (e : MeshEvent) :
    (q.length < event_buffer_size_default →
      mpscSendAwait event_buffer_size_default q e = some (q ++ [e]))
  ∧ (event_buffer_size_default ≤ q.length →
      mpscSendAwait event_buffer_size_default q e = none) := by
  constructor
  · intro h
    simp [mpscSendAwait, h]
  · intro h
    simp [mpscSendAwait, Nat.not_lt.mpr h]

/-- Witness for the amended C4 at concrete inputs: a send on an empty
queue completes with the event appended; a send on a full queue suspends. -/
theorem event_send_await_semantics_witness :
    mpscSendAwait event_buffer_size_default [] MeshEvent.shutdownEvent =
      some [MeshEvent.shutdownEvent]
  ∧ mpscSendAwait event_buffer_size_default fullEventQueue
      MeshEvent.shutdownEvent = none :=
  ⟨(event_send_await_semantics [] MeshEvent.shutdownEvent).1 (by decide),
   (event_send_await_semantics fullEventQueue MeshEvent.shutdownEvent).2 (by decide)⟩

/-- C10: with two tracked positional keys (`f`,0) and (`g`,0) both
resolving capability `c`, a response that drops (`f`,0) and leaves (`g`,0)
unchanged removes `c` from the shared flat capability-to-endpoint map —
the removal deletes by capability name and the unchanged entry is not
re-inserted — while the positional topology still resolves (`g`,0) to
`c`; only the removal event is emitted. -/
theorem shared_map_capability_shadowing :
    lookupA (process_dependency_changes shOld shShared (buildNewDeps shResolved)).shared
      "c" = none
  ∧ lookupA (process_dependency_changes shOld shShared (buildNewDeps shResolved)).deps
      ⟨"g", 0⟩ = some ⟨"c", "e2", "g2", "a2"⟩
  ∧ (process_dependency_changes shOld shShared (buildNewDeps shResolved)).events =
      [MeshEvent.dependencyUnavailable "c" "f" 0] := by
  refine ⟨by decide, by decide, by decide⟩

/-- Membership characterization for one requesting function's contribution
to the new dependency map: entries correspond exactly to the
`available`/`healthy` providers at their positional index. -/
theorem mem_perFuncDeps {f : String} {provs : List ResolvedDependency}
    {kv : DepKey × DepValue} :
    ∀ {i : Nat}, kv ∈ perFuncDeps f i provs ↔
      ∃ j p, provs.get? j = some p ∧ depStatusOk p = true ∧
        kv = (⟨f, i + j⟩, depValueOf p) := by
  induction provs with
  | nil =>
    intro i
    simp [perFuncDeps]
  | cons p rest ih =>
    intro i
    constructor
    · intro h
      rcases List.mem_append.mp h with h1 | h1
      · by_cases hok : depStatusOk p = true
        · simp [hok] at h1
          exact ⟨0, p, by rw [List.get?_cons_zero], hok, by simpa using h1⟩
        · simp [Bool.eq_false_iff.mpr hok] at h1
      · obtain ⟨j, q, hget, hq, hkv⟩ := ih.mp h1
        refine ⟨j + 1, q, by rw [List.get?_cons_succ]; exact hget, hq, ?_⟩
        rw [hkv]
        have harith : i + 1 + j = i + (j + 1) := by omega
        rw [harith]
    · rintro ⟨j, q, hget, hq, rfl⟩
      cases j with
      | zero =>
        rw [List.get?_cons_zero] at hget
        injection hget with hget
        subst hget
        apply List.mem_append.mpr
        left
        simp [hq]
      | succ j' =>
        rw [List.get?_cons_succ] at hget
        apply List.mem_append.mpr
        right
        have harith : i + (j' + 1) = (i + 1) + j' := by omega
        exact ih.mpr ⟨j', q, hget, hq, by rw [harith]⟩

/-- Entries contributed for function `f` starting at index `i` carry the
function name `f` and an index at least `i`. -/
theorem perFuncDeps_key_fields {f : String} {provs : List ResolvedDependency}
    {i : Nat} {kv : DepKey × DepValue} (h : kv ∈ perFuncDeps f i provs) :
    kv.1.requesting_function = f ∧ i ≤ kv.1.dep_index := by
  obtain ⟨j, p, _, _, rfl⟩ := mem_perFuncDeps.mp h
  exact ⟨rfl, by simp⟩

/-- The keys contributed for one function are duplicate-free. -/
theorem perFuncDeps_keys_nodup (f : String) (provs : List ResolvedDependency) :
    ∀ i : Nat, ((perFuncDeps f i provs).map Prod.fst).Nodup := by
  induction provs with
  | nil =>
    intro i
    simp [perFuncDeps]
  | cons p rest ih =>
    intro i
    by_cases hok : depStatusOk p = true
    · simp only [perFuncDeps, hok, if_true, List.map_append, List.map_cons]
      refine List.Nodup.append (by simp) (ih (i + 1)) ?_
      intro k hk1 hk2
      simp only [List.map_cons, List.map_nil, List.mem_singleton] at hk1
      obtain ⟨kv, hkv, hfst⟩ := List.mem_map.mp hk2
      have hle := (perFuncDeps_key_fields hkv).2
      rw [hfst, hk1] at hle
      simp at hle
    · simp only [perFuncDeps, Bool.eq_false_iff.mpr hok, if_false, List.nil_append]
      exact ih (i + 1)

/-- Every entry of the new dependency map names one of the response's
requesting functions. -/
theorem mem_buildNewDeps_function {resolved : List (String × List ResolvedDependency)}
    {kv : DepKey × DepValue} (h : kv ∈ buildNewDeps resolved) :
    kv.1.requesting_function ∈ resolved.map Prod.fst := by
  obtain ⟨fp, hfp, hkv⟩ := List.mem_flatMap.mp h
  rw [(perFuncDeps_key_fields hkv).1]
  exact List.mem_map.mpr ⟨fp, hfp, rfl⟩

/-- With duplicate-free requesting-function names, the new dependency map
has duplicate-free keys. -/
theorem buildNewDeps_keys_nodup {resolved : List (String × List ResolvedDependency)}
    (hFn : (resolved.map Prod.fst).Nodup) :
    ((buildNewDeps resolved).map Prod.fst).Nodup := by
  induction resolved with
  | nil => simp [buildNewDeps]
  | cons fp rest ih =>
    simp only [List.map_cons, List.nodup_cons] at hFn
    have hdisj : ∀ k, k ∈ (perFuncDeps fp.1 0 fp.2).map Prod.fst →
        k ∈ (buildNewDeps rest).map Prod.fst → False := by
      intro k hk1 hk2
      obtain ⟨kv1, hkv1, hfst1⟩ := List.mem_map.mp hk1
      obtain ⟨kv2, hkv2, hfst2⟩ := List.mem_map.mp hk2
      have h1 : k.requesting_function = fp.1 := by
        rw [← hfst1]
        exact (perFuncDeps_key_fields hkv1).1
      have h2 : k.requesting_function ∈ rest.map Prod.fst := by
        rw [← hfst2]
        exact mem_buildNewDeps_function hkv2
      exact hFn.1 (h1 ▸ h2)
    have hsplit : buildNewDeps (fp :: rest) =
        perFuncDeps fp.1 0 fp.2 ++ buildNewDeps rest := by
      simp [buildNewDeps]
    rw [hsplit, List.map_append]
    exact List.Nodup.append (perFuncDeps_keys_nodup fp.1 fp.2 0) (ih hFn.2) hdisj

/-- A provider whose status is neither `available` nor `healthy` leaves no
binding at its positional key in the new dependency map. -/
theorem buildNewDeps_skipped {resolved : List (String × List ResolvedDependency)}
    (hFn : (resolved.map Prod.fst).Nodup) {f : String}
    {provs : List ResolvedDependency} {j : Nat} {p : ResolvedDependency}
    (hf : lookupA resolved f = some provs) (hj : provs.get? j = some p)
    (hok : depStatusOk p = false) :
    lookupA (buildNewDeps resolved) ⟨f, j⟩ = none := by
  rw [lookupA_eq_none_iff]
  intro hmem
  obtain ⟨kv, hkv, hfst⟩ := List.mem_map.mp hmem
  obtain ⟨fp, hfp, hpf⟩ := List.mem_flatMap.mp hkv
  have hfe : fp.1 = f := by
    rw [← (perFuncDeps_key_fields hpf).1, hfst]
  have hprovs : fp.2 = provs := by
    have hl : lookupA resolved fp.1 = some fp.2 :=
      lookupA_eq_some_of_mem hFn (by
        have : fp = (fp.1, fp.2) := rfl
        rw [← this]
        exact hfp)
    rw [hfe, hf] at hl
    injection hl with hl
    exact hl.symm
  obtain ⟨j', q, hget, hq, hkveq⟩ := mem_perFuncDeps.mp hpf
  rw [hkveq] at hfst
  have hjj : j' = j := by
    simpa using congrArg DepKey.dep_index hfst
  rw [hprovs, hjj, hj] at hget
  injection hget with hget
  rw [hget] at hok
  rw [hq] at hok
  cases hok

/-- The event list of `process_dependency_changes`, as a removal pass over
the old map followed by an added-or-changed pass over the `new_deps`
iteration. -/
theorem pdc_events_eq (old : List (DepKey × DepValue))
    (shared : List (String × String)) (newIter : List (DepKey × DepValue)) :
    (process_dependency_changes old shared newIter).events =
      (old.filter fun kv => !containsA newIter kv.1).map (fun kv =>
        MeshEvent.dependencyUnavailable kv.2.capability kv.1.requesting_function
          kv.1.dep_index)
      ++ (newIter.filter fun kv => depChangedB old kv.1 kv.2).map (fun kv =>
          if !containsA old kv.1 then
            MeshEvent.dependencyAvailable kv.2.capability kv.2.endpoint
              kv.2.function_name kv.2.agent_id kv.1.requesting_function
              kv.1.dep_index
          else
            MeshEvent.dependencyChanged kv.2.capability kv.2.endpoint
              kv.2.function_name kv.2.agent_id kv.1.requesting_function
              kv.1.dep_index) := by
  unfold process_dependency_changes
  simp only [List.map_map]
  rfl

/-- The positional-key eta law for `DepKey`. -/
theorem depKey_eta (k : DepKey) :
    (⟨k.requesting_function, k.dep_index⟩ : DepKey) = k := rfl

/-- `unavailAt` on a removal event built from an entry tests the entry's
key. -/
theorem unavailAt_on_unavail (k kk : DepKey) (c : String) :
    unavailAt k (.dependencyUnavailable c kk.requesting_function kk.dep_index) =
      decide (kk = k) := by
  have he : evKey (.dependencyUnavailable c kk.requesting_function kk.dep_index) =
      some kk := rfl
  by_cases h : kk = k
  · subst h
    simp [unavailAt, isUnavailEv, he]
  · simp [unavailAt, isUnavailEv, he, h]

/-- `availAt` on an availability event built from an entry tests the
entry's key. -/
theorem availAt_on_avail (k kk : DepKey) (v : DepValue) :
    availAt k (.dependencyAvailable v.capability v.endpoint v.function_name
      v.agent_id kk.requesting_function kk.dep_index) = decide (kk = k) := by
  have he : evKey (.dependencyAvailable v.capability v.endpoint v.function_name
      v.agent_id kk.requesting_function kk.dep_index) = some kk := rfl
  by_cases h : kk = k
  · subst h
    simp [availAt, isAvailEv, he]
  · simp [availAt, isAvailEv, he, h]

/-- `changedAt` on a change event built from an entry tests the entry's
key. -/
theorem changedAt_on_changed (k kk : DepKey) (v : DepValue) :
    changedAt k (.dependencyChanged v.capability v.endpoint v.function_name
      v.agent_id kk.requesting_function kk.dep_index) = decide (kk = k) := by
  have he : evKey (.dependencyChanged v.capability v.endpoint v.function_name
      v.agent_id kk.requesting_function kk.dep_index) = some kk := rfl
  by_cases h : kk = k
  · subst h
    simp [changedAt, isChangedEv, he]
  · simp [changedAt, isChangedEv, he, h]

/-- Removal events contribute nothing to availability counts. -/
theorem countP_unavailMap_availAt (k : DepKey) (l : List (DepKey × DepValue)) :
    (l.map fun kv => MeshEvent.dependencyUnavailable kv.2.capability
      kv.1.requesting_function kv.1.dep_index).countP (availAt k) = 0 :=
  List.countP_eq_zero.mpr fun e he => by
    obtain ⟨kv, _, rfl⟩ := List.mem_map.mp he
    simp [availAt, isAvailEv]

/-- Removal events contribute nothing to change counts. -/
theorem countP_unavailMap_changedAt (k : DepKey) (l : List (DepKey × DepValue)) :
    (l.map fun kv => MeshEvent.dependencyUnavailable kv.2.capability
      kv.1.requesting_function kv.1.dep_index).countP (changedAt k) = 0 :=
  List.countP_eq_zero.mpr fun e he => by
    obtain ⟨kv, _, rfl⟩ := List.mem_map.mp he
    simp [changedAt, isChangedEv]

/-- Removal events at key `k` are counted by the entry key. -/
theorem countP_unavailMap_unavailAt (k : DepKey) (l : List (DepKey × DepValue)) :
    (l.map fun kv => MeshEvent.dependencyUnavailable kv.2.capability
      kv.1.requesting_function kv.1.dep_index).countP (unavailAt k) =
      l.countP fun kv => decide (kv.1 = k) := by
  rw [List.countP_map]
  refine List.countP_congr fun kv _ => ?_
  rw [Function.comp_apply, unavailAt_on_unavail]

/-- Added-or-changed events contribute nothing to removal counts. -/
theorem countP_addMap_unavailAt (old : List (DepKey × DepValue)) (k : DepKey)
    (l : List (DepKey × DepValue)) :
    (l.map fun kv =>
      if !containsA old kv.1 then
        MeshEvent.dependencyAvailable kv.2.capability kv.2.endpoint
          kv.2.function_name kv.2.agent_id kv.1.requesting_function kv.1.dep_index
      else
        MeshEvent.dependencyChanged kv.2.capability kv.2.endpoint
          kv.2.function_name kv.2.agent_id kv.1.requesting_function
          kv.1.dep_index).countP (unavailAt k) = 0 :=
  List.countP_eq_zero.mpr fun e he => by
    obtain ⟨kv, _, rfl⟩ := List.mem_map.mp he
    by_cases hb : containsA old kv.1 = true <;> simp [hb, unavailAt, isUnavailEv]

/-- Added-or-changed events at key `k` counted as availabilities: entries
whose key is absent from the old map. -/
theorem countP_addMap_availAt (old : List (DepKey × DepValue)) (k : DepKey)
    (l : List (DepKey × DepValue)) :
    (l.map fun kv =>
      if !containsA old kv.1 then
        MeshEvent.dependencyAvailable kv.2.capability kv.2.endpoint
          kv.2.function_name kv.2.agent_id kv.1.requesting_function kv.1.dep_index
      else
        MeshEvent.dependencyChanged kv.2.capability kv.2.endpoint
          kv.2.function_name kv.2.agent_id kv.1.requesting_function
          kv.1.dep_index).countP (availAt k) =
      l.countP fun kv => decide (kv.1 = k) && !containsA old kv.1 := by
  rw [List.countP_map]
  refine List.countP_congr fun kv _ => ?_
  by_cases hb : containsA old kv.1 = true
  · simp [Function.comp_apply, hb, availAt, isAvailEv]
  · have hb' : containsA old kv.1 = false := by
      revert hb
      cases containsA old kv.1 <;> simp
    simp [Function.comp_apply, hb', availAt_on_avail]

/-- Added-or-changed events at key `k` counted as changes: entries whose
key is present in the old map. -/
theorem countP_addMap_changedAt (old : List (DepKey × DepValue)) (k : DepKey)
    (l : List (DepKey × DepValue)) :
    (l.map fun kv =>
      if !containsA old kv.1 then
        MeshEvent.dependencyAvailable kv.2.capability kv.2.endpoint
          kv.2.function_name kv.2.agent_id kv.1.requesting_function kv.1.dep_index
      else
        MeshEvent.dependencyChanged kv.2.capability kv.2.endpoint
          kv.2.function_name kv.2.agent_id kv.1.requesting_function
          kv.1.dep_index).countP (changedAt k) =
      l.countP fun kv => decide (kv.1 = k) && containsA old kv.1 := by
  rw [List.countP_map]
  refine List.countP_congr fun kv _ => ?_
  by_cases hb : containsA old kv.1 = true
  · simp [Function.comp_apply, hb, changedAt_on_changed]
  · have hb' : containsA old kv.1 = false := by
      revert hb
      cases containsA old kv.1 <;> simp
    simp [Function.comp_apply, hb', changedAt, isChangedEv]

/-- Count of `dependency_unavailable` events at each key: exactly one for
a key in the old map but not the new one. -/
theorem pdc_count_unavail (old : List (DepKey × DepValue))
    (shared : List (String × String))
    (resolved : List (String × List ResolvedDependency))
    (newIter : List (DepKey × DepValue))
    (hOld : (old.map Prod.fst).Nodup)
    (hFn : (resolved.map Prod.fst).Nodup)
    (hIter : newIter.Perm (buildNewDeps resolved)) (k : DepKey) :
    (process_dependency_changes old shared newIter).events.countP (unavailAt k) =
      if containsA old k = true ∧ containsA (buildNewDeps resolved) k = false
      then 1 else 0 := by
  have hNewNodup := buildNewDeps_keys_nodup hFn
  have hLook : lookupA newIter k = lookupA (buildNewDeps resolved) k :=
    (lookupA_eq_of_perm hNewNodup hIter.symm k).symm
  rw [pdc_events_eq, List.countP_append, countP_addMap_unavailAt,
    countP_unavailMap_unavailAt, Nat.add_zero, List.countP_filter,
    countP_keyed hOld k]
  have hCont : containsA newIter k = containsA (buildNewDeps resolved) k := by
    unfold containsA
    rw [hLook]
  cases hl : lookupA old k with
  | none =>
    have hco : containsA old k = false := by simp [containsA, hl]
    simp [hco]
  | some v =>
    have hco : containsA old k = true := by simp [containsA, hl]
    cases hc2 : containsA (buildNewDeps resolved) k <;> simp [hco, hc2, hCont]

/-- Count of `dependency_available` events at each key: exactly one for a
key in the new map but not the old one. -/
theorem pdc_count_avail (old : List (DepKey × DepValue))
    (shared : List (String × String))
    (resolved : List (String × List ResolvedDependency))
    (newIter : List (DepKey × DepValue))
    (hOld : (old.map Prod.fst).Nodup)
    (hFn : (resolved.map Prod.fst).Nodup)
    (hIter : newIter.Perm (buildNewDeps resolved)) (k : DepKey) :
    (process_dependency_changes old shared newIter).events.countP (availAt k) =
      if containsA (buildNewDeps resolved) k = true ∧ containsA old k = false
      then 1 else 0 := by
  have hNewNodup := buildNewDeps_keys_nodup hFn
  have hIterNodup : (newIter.map Prod.fst).Nodup :=
    nodup_keys_of_perm hIter.symm hNewNodup
  have hLook : lookupA newIter k = lookupA (buildNewDeps resolved) k :=
    (lookupA_eq_of_perm hNewNodup hIter.symm k).symm
  rw [pdc_events_eq, List.countP_append, countP_unavailMap_availAt,
    countP_addMap_availAt, Nat.zero_add, List.countP_filter]
  have hassoc :
      (newIter.countP fun kv =>
        (decide (kv.1 = k) && !containsA old kv.1) && depChangedB old kv.1 kv.2) =
      newIter.countP fun kv =>
        decide (kv.1 = k) && (!containsA old kv.1 && depChangedB old kv.1 kv.2) :=
    List.countP_congr fun kv _ => by rw [Bool.and_assoc]
  rw [hassoc, countP_keyed hIterNodup k, hLook]
  cases hl : lookupA (buildNewDeps resolved) k with
  | none =>
    have hc2 : containsA (buildNewDeps resolved) k = false := by simp [containsA, hl]
    simp [hc2]
  | some v =>
    have hc2 : containsA (buildNewDeps resolved) k = true := by simp [containsA, hl]
    cases hold : containsA old k with
    | false =>
      have holdn : lookupA old k = none := by
        cases h : lookupA old k with
        | none => rfl
        | some w => rw [containsA, h] at hold; simp at hold
      simp [hc2, hold, depChangedB, holdn]
    | true =>
      simp [hc2, hold]

/-- Count of `dependency_changed` events at each key: exactly one for a
key bound in both maps whose endpoint or function_name differs. -/
theorem pdc_count_changed (old : List (DepKey × DepValue))
    (shared : List (String × String))
    (resolved : List (String × List ResolvedDependency))
    (newIter : List (DepKey × DepValue))
    (hOld : (old.map Prod.fst).Nodup)
    (hFn : (resolved.map Prod.fst).Nodup)
    (hIter : newIter.Perm (buildNewDeps resolved)) (k : DepKey) :
    (process_dependency_changes old shared newIter).events.countP (changedAt k) =
      if bothChangedB old (buildNewDeps resolved) k = true then 1 else 0 := by
  have hNewNodup := buildNewDeps_keys_nodup hFn
  have hIterNodup : (newIter.map Prod.fst).Nodup :=
    nodup_keys_of_perm hIter.symm hNewNodup
  have hLook : lookupA newIter k = lookupA (buildNewDeps resolved) k :=
    (lookupA_eq_of_perm hNewNodup hIter.symm k).symm
  rw [pdc_events_eq, List.countP_append, countP_unavailMap_changedAt,
    countP_addMap_changedAt, Nat.zero_add, List.countP_filter]
  have hassoc :
      (newIter.countP fun kv =>
        (decide (kv.1 = k) && containsA old kv.1) && depChangedB old kv.1 kv.2) =
      newIter.countP fun kv =>
        decide (kv.1 = k) && (containsA old kv.1 && depChangedB old kv.1 kv.2) :=
    List.countP_congr fun kv _ => by rw [Bool.and_assoc]
  rw [hassoc, countP_keyed hIterNodup k, hLook]
  cases hl : lookupA (buildNewDeps resolved) k with
  | none =>
    cases hlo : lookupA old k <;> simp [bothChangedB, hl, hlo]
  | some v =>
    cases hlo : lookupA old k with
    | none =>
      have hold : containsA old k = false := by simp [containsA, hlo]
      simp [hold, bothChangedB, hl, hlo]
    | some ov =>
      have hold : containsA old k = true := by simp [containsA, hlo]
      simp only [hold, Bool.true_and, bothChangedB, hl, hlo, depChangedB]

/-- Every emitted dependency event is one of the three dependency kinds. -/
theorem pdc_event_kinds (old : List (DepKey × DepValue))
    (shared : List (String × String)) (newIter : List (DepKey × DepValue)) :
    ∀ e ∈ (process_dependency_changes old shared newIter).events,
      (isUnavailEv e || isAvailEv e || isChangedEv e) = true := by
  intro e he
  rw [pdc_events_eq] at he
  rcases List.mem_append.mp he with h | h
  · obtain ⟨kv, _, rfl⟩ := List.mem_map.mp h
    simp [isUnavailEv]
  · obtain ⟨kv, _, rfl⟩ := List.mem_map.mp h
    by_cases hb : containsA old kv.1 = true <;>
      simp [hb, isUnavailEv, isAvailEv, isChangedEv]

/-- Every available/changed event carries exactly the binding of the new
dependency map at its key. -/
theorem pdc_event_data (old : List (DepKey × DepValue))
    (shared : List (String × String))
    (resolved : List (String × List ResolvedDependency))
    (newIter : List (DepKey × DepValue))
    (hFn : (resolved.map Prod.fst).Nodup)
    (hIter : newIter.Perm (buildNewDeps resolved)) :
    ∀ e ∈ (process_dependency_changes old shared newIter).events,
      ∀ (k : DepKey) (v : DepValue), evKey e = some k → evDepValue e = some v →
        lookupA (buildNewDeps resolved) k = some v := by
  have hNewNodup := buildNewDeps_keys_nodup hFn
  have hIterNodup : (newIter.map Prod.fst).Nodup :=
    nodup_keys_of_perm hIter.symm hNewNodup
  intro e he k v hk hv
  rw [pdc_events_eq] at he
  rcases List.mem_append.mp he with h | h
  · obtain ⟨kv, _, rfl⟩ := List.mem_map.mp h
    simp [evDepValue] at hv
  · obtain ⟨kv, hkvf, rfl⟩ := List.mem_map.mp h
    have hkvmem : kv ∈ newIter := List.mem_of_mem_filter hkvf
    have hbind : lookupA newIter kv.1 = some kv.2 :=
      lookupA_eq_some_of_mem hIterNodup (by
        have : kv = (kv.1, kv.2) := rfl
        rw [← this]
        exact hkvmem)
    have hkv : kv.1 = k ∧ kv.2 = v := by
      by_cases hb : containsA old kv.1 = true
      · simp only [hb, Bool.not_true, Bool.false_eq_true, if_false] at hk hv
        have hek : evKey (MeshEvent.dependencyChanged kv.2.capability kv.2.endpoint
            kv.2.function_name kv.2.agent_id kv.1.requesting_function
            kv.1.dep_index) = some kv.1 := rfl
        have hev : evDepValue (MeshEvent.dependencyChanged kv.2.capability
            kv.2.endpoint kv.2.function_name kv.2.agent_id
            kv.1.requesting_function kv.1.dep_index) = some kv.2 := rfl
        rw [hek] at hk
        rw [hev] at hv
        exact ⟨Option.some.inj hk, Option.some.inj hv⟩
      · have hb' : (!containsA old kv.1) = true := by
          revert hb
          cases containsA old kv.1 <;> simp
        simp only [hb', if_true] at hk hv
        have hek : evKey (MeshEvent.dependencyAvailable kv.2.capability kv.2.endpoint
            kv.2.function_name kv.2.agent_id kv.1.requesting_function
            kv.1.dep_index) = some kv.1 := rfl
        have hev : evDepValue (MeshEvent.dependencyAvailable kv.2.capability
            kv.2.endpoint kv.2.function_name kv.2.agent_id
            kv.1.requesting_function kv.1.dep_index) = some kv.2 := rfl
        rw [hek] at hk
        rw [hev] at hv
        exact ⟨Option.some.inj hk, Option.some.inj hv⟩
    rw [← hkv.1, ← hkv.2, lookupA_eq_of_perm hNewNodup hIter.symm kv.1]
    exact hbind

/-- Every available/changed event has a `some` dependency payload. -/
theorem pdc_availChanged_payload (old : List (DepKey × DepValue))
    (shared : List (String × String)) (newIter : List (DepKey × DepValue)) :
    ∀ e ∈ (process_dependency_changes old shared newIter).events,
      isUnavailEv e = false → (evKey e).isSome = true ∧ (evDepValue e).isSome = true := by
  intro e he hu
  rw [pdc_events_eq] at he
  rcases List.mem_append.mp he with h | h
  · obtain ⟨kv, _, rfl⟩ := List.mem_map.mp h
    simp [isUnavailEv] at hu
  · obtain ⟨kv, _, rfl⟩ := List.mem_map.mp h
    by_cases hb : containsA old kv.1 = true <;> simp [hb, evKey, evDepValue]

/-- C1: for every heartbeat response, with the new positional dependency
map built by skipping providers that are not `available`/`healthy`, the
emitted dependency events are exactly one `dependency_unavailable` per key
in old∖new, one `dependency_available` per key in new∖old, and one
`dependency_changed` per key in both whose endpoint or function_name
differs (agent_id alone does not count); no other dependency events and no
duplicates (the per-key counts are exact for every iteration order of the
new map); every available/changed payload is the new map's binding, so no
skipped provider's data appears, and at a skipped provider's position only
a removal event can occur. -/
theorem dependency_diff_events_exact (old : List (DepKey × DepValue))
    (shared : List (String × String))
    (resolved : List (String × List ResolvedDependency))
    (newIter : List (DepKey × DepValue))
    (hOld : (old.map Prod.fst).Nodup)
    (hFn : (resolved.map Prod.fst).Nodup)
    (hIter : newIter.Perm (buildNewDeps resolved)) :
    (∀ k : DepKey,
      (process_dependency_changes old shared newIter).events.countP (unavailAt k) =
        if containsA old k = true ∧ containsA (buildNewDeps resolved) k = false
        then 1 else 0)
  ∧ (∀ k : DepKey,
      (process_dependency_changes old shared newIter).events.countP (availAt k) =
        if containsA (buildNewDeps resolved) k = true ∧ containsA old k = false
        then 1 else 0)
  ∧ (∀ k : DepKey,
      (process_dependency_changes old shared newIter).events.countP (changedAt k) =
        if bothChangedB old (buildNewDeps resolved) k = true then 1 else 0)
  ∧ (∀ e ∈ (process_dependency_changes old shared newIter).events,
      (isUnavailEv e || isAvailEv e || isChangedEv e) = true)
  ∧ (∀ e ∈ (process_dependency_changes old shared newIter).events,
      ∀ (k : DepKey) (v : DepValue), evKey e = some k → evDepValue e = some v →
        lookupA (buildNewDeps resolved) k = some v)
  ∧ (∀ (f : String) (provs : List ResolvedDependency) (j : Nat)
        (p : ResolvedDependency),
      lookupA resolved f = some provs → provs.get? j = some p →
      depStatusOk p = false →
      ∀ e ∈ (process_dependency_changes old shared newIter).events,
        evKey e = some ⟨f, j⟩ → isUnavailEv e = true) := by
  refine ⟨pdc_count_unavail old shared resolved newIter hOld hFn hIter,
    pdc_count_avail old shared resolved newIter hOld hFn hIter,
    pdc_count_changed old shared resolved newIter hOld hFn hIter,
    pdc_event_kinds old shared newIter,
    pdc_event_data old shared resolved newIter hFn hIter,
    ?_⟩
  intro f provs j p hf hj hok e he hkey
  cases hu : isUnavailEv e with
  | true => rfl
  | false =>
    obtain ⟨_, hvs⟩ := pdc_availChanged_payload old shared newIter e he hu
    obtain ⟨v, hv⟩ := Option.isSome_iff_exists.mp hvs
    have hsome := pdc_event_data old shared resolved newIter hFn hIter e he
      ⟨f, j⟩ v hkey hv
    rw [buildNewDeps_skipped hFn hf hj hok] at hsome
    cases hsome

/-- Witness for C1 at a concrete response (two healthy providers of the
same capability for function `f`, empty prior topology): exactly one
availability event per positional key and no removals. -/
theorem dependency_diff_events_exact_witness :
    (process_dependency_changes [] [] (buildNewDeps exResolved)).events.countP
      (availAt ⟨"f", 0⟩) = 1
  ∧ (process_dependency_changes [] [] (buildNewDeps exResolved)).events.countP
      (availAt ⟨"f", 1⟩) = 1
  ∧ (process_dependency_changes [] [] (buildNewDeps exResolved)).events.countP
      (unavailAt ⟨"f", 0⟩) = 0 := by
  have h := dependency_diff_events_exact [] [] exResolved (buildNewDeps exResolved)
    (by decide) (by decide) (List.Perm.refl _)
  refine ⟨?_, ?_, ?_⟩
  · rw [h.2.1 ⟨"f", 0⟩]
    decide
  · rw [h.2.1 ⟨"f", 1⟩]
    decide
  · rw [h.1 ⟨"f", 0⟩]
    decide

/-- Lookup after key removal. -/
theorem lookupA_eraseA {α β : Type} [DecidableEq α] (l : List (α × β))
    (a k : α) :
    lookupA (eraseA l a) k = if k = a then none else lookupA l k := by
  induction l with
  | nil => by_cases h : k = a <;> simp [eraseA, lookupA, h]
  | cons kv rest ih =>
    obtain ⟨b, v⟩ := kv
    by_cases hba : b = a
    · subst hba
      by_cases hk : k = b
      · subst hk
        simp [eraseA, lookupA, ih]
      · simp [eraseA, lookupA, ih, hk, Ne.symm hk]
    · by_cases hk : b = k
      · subst hk
        have hka : ¬ b = a := hba
        simp [eraseA, lookupA, hba, hka]
      · simp [eraseA, lookupA, hba, hk, ih]

/-- Lookup distributes over append, preferring the left list. -/
theorem lookupA_append {α β : Type} [DecidableEq α] (l1 l2 : List (α × β))
    (k : α) :
    lookupA (l1 ++ l2) k =
      (match lookupA l1 k with
       | some v => some v
       | none => lookupA l2 k) := by
  induction l1 with
  | nil => simp [lookupA]
  | cons kv rest ih =>
    obtain ⟨b, v⟩ := kv
    by_cases hk : b = k <;> simp [lookupA, hk, ih]

/-- Lookup after insert-or-replace. -/
theorem lookupA_insertA {α β : Type} [DecidableEq α] (l : List (α × β))
    (a : α) (b : β) (k : α) :
    lookupA (insertA l a b) k = if k = a then some b else lookupA l k := by
  unfold insertA
  rw [lookupA_append, lookupA_eraseA]
  by_cases hk : k = a
  · simp [hk, lookupA]
  · cases h : lookupA l k <;> simp [hk, h, lookupA, Ne.symm hk]

/-- The LLM-tools step either inserts the response entry and appends its
update event, or leaves the accumulator untouched. -/
theorem llmToolsStep_cases (acc : List (String × List LlmToolInfo) × List MeshEvent)
    (ft : String × List LlmToolInfo) :
    llmToolsStep acc ft =
      (insertA acc.1 ft.1 ft.2, acc.2 ++ [MeshEvent.llmToolsUpdated ft.1 ft.2]) ∨
    llmToolsStep acc ft = acc := by
  unfold llmToolsStep
  by_cases hc : (match lookupA acc.1 ft.1 with
    | some old_tools => !tools_are_equal old_tools ft.2
    | none => true) = true
  · left
    simp [hc]
  · right
    simp [hc]

/-- The LLM-providers step either inserts the tracked entry and appends
its availability event, or leaves the accumulator untouched. -/
theorem llmProvidersStep_cases
    (acc : List (String × TrackedProvider) × List MeshEvent)
    (fp : String × ResolvedLlmProvider) :
    llmProvidersStep acc fp =
      (insertA acc.1 fp.1 (trackedOf fp.1 fp.2),
        acc.2 ++ [MeshEvent.llmProviderAvailable (providerInfoOf fp.1 fp.2)]) ∨
    llmProvidersStep acc fp = acc := by
  unfold llmProvidersStep
  by_cases hc : (match lookupA acc.1 fp.1 with
    | some old_p =>
      !decide (old_p.endpoint = (trackedOf fp.1 fp.2).endpoint) ||
        !decide (old_p.function_name = (trackedOf fp.1 fp.2).function_name)
    | none => true) = true
  · left
    simp [hc]
  · right
    simp [hc]

/-- Folding the LLM-tools step: function ids absent from the response keep
their binding, every appended event names a response function id, and
existing bindings never disappear. -/
theorem llmTools_fold_frame (resp : List (String × List LlmToolInfo)) :
    ∀ (acc : List (String × List LlmToolInfo) × List MeshEvent),
      (∀ fid : String, fid ∉ resp.map Prod.fst →
        lookupA (resp.foldl llmToolsStep acc).1 fid = lookupA acc.1 fid)
    ∧ (∀ e ∈ (resp.foldl llmToolsStep acc).2, e ∈ acc.2 ∨
        ∃ fid ts, fid ∈ resp.map Prod.fst ∧ e = MeshEvent.llmToolsUpdated fid ts)
    ∧ (∀ fid : String, (lookupA acc.1 fid).isSome = true →
        (lookupA (resp.foldl llmToolsStep acc).1 fid).isSome = true) := by
  induction resp with
  | nil =>
    intro acc
    exact ⟨fun _ _ => rfl, fun e he => Or.inl he, fun _ h => h⟩
  | cons ft rest ih =>
    intro acc
    have hstep : (ft :: rest).foldl llmToolsStep acc =
        rest.foldl llmToolsStep (llmToolsStep acc ft) := rfl
    have hkeep : ∀ fid : String, fid ≠ ft.1 →
        lookupA (llmToolsStep acc ft).1 fid = lookupA acc.1 fid := by
      intro fid hne
      rcases llmToolsStep_cases acc ft with h | h <;> rw [h]
      simp [lookupA_insertA, hne]
    have hev : (llmToolsStep acc ft).2 = acc.2 ∨
        (llmToolsStep acc ft).2 = acc.2 ++ [MeshEvent.llmToolsUpdated ft.1 ft.2] := by
      rcases llmToolsStep_cases acc ft with h | h <;> rw [h]
      · exact Or.inr rfl
      · exact Or.inl rfl
    have hsome : ∀ fid : String, (lookupA acc.1 fid).isSome = true →
        (lookupA (llmToolsStep acc ft).1 fid).isSome = true := by
      intro fid hs
      rcases llmToolsStep_cases acc ft with h | h <;> rw [h]
      · by_cases hfid : fid = ft.1 <;> simp [lookupA_insertA, hfid, hs]
      · exact hs
    refine ⟨?_, ?_, ?_⟩
    · intro fid hfid
      simp only [List.map_cons, List.mem_cons] at hfid
      push_neg at hfid
      rw [hstep, (ih (llmToolsStep acc ft)).1 fid (by simpa using hfid.2),
        hkeep fid hfid.1]
    · intro e he
      rw [hstep] at he
      rcases (ih (llmToolsStep acc ft)).2.1 e he with h | ⟨fid, ts, hfid, rfl⟩
      · rcases hev with hev | hev
        · rw [hev] at h
          exact Or.inl h
        · rw [hev] at h
          rcases List.mem_append.mp h with h1 | h1
          · exact Or.inl h1
          · simp only [List.mem_singleton] at h1
            exact Or.inr ⟨ft.1, ft.2, by simp, h1⟩
      · exact Or.inr ⟨fid, ts, by simp [hfid], rfl⟩
    · intro fid hs
      rw [hstep]
      exact (ih (llmToolsStep acc ft)).2.2 fid (hsome fid hs)

/-- Folding the LLM-providers step: the same frame properties as for LLM
tools. -/
theorem llmProviders_fold_frame (resp : List (String × ResolvedLlmProvider)) :
    ∀ (acc : List (String × TrackedProvider) × List MeshEvent),
      (∀ fid : String, fid ∉ resp.map Prod.fst →
        lookupA (resp.foldl llmProvidersStep acc).1 fid = lookupA acc.1 fid)
    ∧ (∀ e ∈ (resp.foldl llmProvidersStep acc).2, e ∈ acc.2 ∨
        ∃ info, info.function_id ∈ resp.map Prod.fst ∧
          e = MeshEvent.llmProviderAvailable info)
    ∧ (∀ fid : String, (lookupA acc.1 fid).isSome = true →
        (lookupA (resp.foldl llmProvidersStep acc).1 fid).isSome = true) := by
  induction resp with
  | nil =>
    intro acc
    exact ⟨fun _ _ => rfl, fun e he => Or.inl he, fun _ h => h⟩
  | cons fp rest ih =>
    intro acc
    have hstep : (fp :: rest).foldl llmProvidersStep acc =
        rest.foldl llmProvidersStep (llmProvidersStep acc fp) := rfl
    have hkeep : ∀ fid : String, fid ≠ fp.1 →
        lookupA (llmProvidersStep acc fp).1 fid = lookupA acc.1 fid := by
      intro fid hne
      rcases llmProvidersStep_cases acc fp with h | h <;> rw [h]
      simp [lookupA_insertA, hne]
    have hev : (llmProvidersStep acc fp).2 = acc.2 ∨
        (llmProvidersStep acc fp).2 =
          acc.2 ++ [MeshEvent.llmProviderAvailable (providerInfoOf fp.1 fp.2)] := by
      rcases llmProvidersStep_cases acc fp with h | h <;> rw [h]
      · exact Or.inr rfl
      · exact Or.inl rfl
    have hsome : ∀ fid : String, (lookupA acc.1 fid).isSome = true →
        (lookupA (llmProvidersStep acc fp).1 fid).isSome = true := by
      intro fid hs
      rcases llmProvidersStep_cases acc fp with h | h <;> rw [h]
      · by_cases hfid : fid = fp.1 <;> simp [lookupA_insertA, hfid, hs]
      · exact hs
    refine ⟨?_, ?_, ?_⟩
    · intro fid hfid
      simp only [List.map_cons, List.mem_cons] at hfid
      push_neg at hfid
      rw [hstep, (ih (llmProvidersStep acc fp)).1 fid (by simpa using hfid.2),
        hkeep fid hfid.1]
    · intro e he
      rw [hstep] at he
      rcases (ih (llmProvidersStep acc fp)).2.1 e he with h | ⟨info, hfid, rfl⟩
      · rcases hev with hev | hev
        · rw [hev] at h
          exact Or.inl h
        · rw [hev] at h
          rcases List.mem_append.mp h with h1 | h1
          · exact Or.inl h1
          · simp only [List.mem_singleton] at h1
            exact Or.inr ⟨providerInfoOf fp.1 fp.2, by simp [providerInfoOf], h1⟩
      · exact Or.inr ⟨info, by simp [hfid], rfl⟩
    · intro fid hs
      rw [hstep]
      exact (ih (llmProvidersStep acc fp)).2.2 fid (hsome fid hs)

/-- C9: the LLM tools and LLM providers maps never shrink — a heartbeat
response only inserts or overwrites entries for function ids it mentions;
a function id absent from the response keeps its binding unchanged and
produces no event, and existing bindings never disappear (there is no
removal analog for LLM tools or providers). -/
theorem llm_maps_never_shrink (llm : List (String × List LlmToolInfo))
    (respT : List (String × List LlmToolInfo))
    (provs : List (String × TrackedProvider))
    (respP : List (String × ResolvedLlmProvider)) :
    (∀ fid : String, fid ∉ respT.map Prod.fst →
        lookupA (process_llm_tools_changes llm respT).1 fid = lookupA llm fid)
  ∧ (∀ fid : String, fid ∉ respT.map Prod.fst →
        ∀ e ∈ (process_llm_tools_changes llm respT).2, evFunctionId e ≠ some fid)
  ∧ (∀ (fid : String) (v : List LlmToolInfo), lookupA llm fid = some v →
        (lookupA (process_llm_tools_changes llm respT).1 fid).isSome = true)
  ∧ (∀ fid : String, fid ∉ respP.map Prod.fst →
        lookupA (process_llm_providers_changes provs respP).1 fid =
          lookupA provs fid)
  ∧ (∀ fid : String, fid ∉ respP.map Prod.fst →
        ∀ e ∈ (process_llm_providers_changes provs respP).2,
          evFunctionId e ≠ some fid)
  ∧ (∀ (fid : String) (v : TrackedProvider), lookupA provs fid = some v →
        (lookupA (process_llm_providers_changes provs respP).1 fid).isSome = true) := by
  have hT := llmTools_fold_frame respT (llm, [])
  have hP := llmProviders_fold_frame respP (provs, [])
  refine ⟨fun fid hfid => hT.1 fid hfid, ?_, ?_, fun fid hfid => hP.1 fid hfid, ?_, ?_⟩
  · intro fid hfid e he hcontra
    rcases hT.2.1 e he with h | ⟨fid', ts, hin, rfl⟩
    · simp at h
    · have : evFunctionId (MeshEvent.llmToolsUpdated fid' ts) = some fid' := rfl
      rw [this] at hcontra
      injection hcontra with hcontra
      exact hfid (hcontra ▸ hin)
  · intro fid v hv
    exact hT.2.2 fid (by rw [hv]; rfl)
  · intro fid hfid e he hcontra
    rcases hP.2.1 e he with h | ⟨info, hin, rfl⟩
    · simp at h
    · have : evFunctionId (MeshEvent.llmProviderAvailable info) =
          some info.function_id := rfl
      rw [this] at hcontra
      injection hcontra with hcontra
      exact hfid (hcontra ▸ hin)
  · intro fid v hv
    exact hP.2.2 fid (by rw [hv]; rfl)

/-- Witness for C9 at concrete inputs: a tracked function id absent from
the response keeps its tools and provider bindings. -/
theorem llm_maps_never_shrink_witness :
    lookupA (process_llm_tools_changes
        [("a", [])] [("b", [⟨"t", "c", "", "http://x", "p", none⟩])]).1 "a" =
      some []
  ∧ lookupA (process_llm_providers_changes
        [("a", ⟨"a", "p1", "http://x", "go", none⟩)]
        [("b", ⟨"p2", "http://y", "run", none, none, none, none, none⟩)]).1 "a" =
      some ⟨"a", "p1", "http://x", "go", none⟩ := by
  constructor
  · rw [(llm_maps_never_shrink [("a", [])]
        [("b", [⟨"t", "c", "", "http://x", "p", none⟩])] [] []).1 "a" (by decide)]
    decide
  · rw [(llm_maps_never_shrink [] []
        [("a", ⟨"a", "p1", "http://x", "go", none⟩)]
        [("b", ⟨"p2", "http://y", "run", none, none, none, none, none⟩)]).2.2.2.1
        "a" (by decide)]
    decide

/-- A list of events of one rank is trivially ordered by rank. -/
theorem pairwise_rank_const {l : List MeshEvent} {c : Nat}
    (h : ∀ e ∈ l, evRank e = c) :
    List.Pairwise (fun a b => evRank a ≤ evRank b) l := by
  induction l with
  | nil => exact List.Pairwise.nil
  | cons a rest ih =>
    refine List.Pairwise.cons (fun b hb => ?_) (ih fun e he => h e (by simp [he]))
    rw [h a (by simp), h b (by simp [hb])]

/-- Dependency diff events are ordered by rank: all removals first, then
all availabilities/changes. -/
theorem pdc_events_rank_order (old : List (DepKey × DepValue))
    (shared : List (String × String)) (newIter : List (DepKey × DepValue)) :
    List.Pairwise (fun a b => evRank a ≤ evRank b)
      (process_dependency_changes old shared newIter).events := by
  rw [pdc_events_eq]
  refine List.pairwise_append.mpr ⟨?_, ?_, ?_⟩
  · refine pairwise_rank_const (c := 0) fun e he => ?_
    obtain ⟨kv, _, rfl⟩ := List.mem_map.mp he
    rfl
  · refine pairwise_rank_const (c := 1) fun e he => ?_
    obtain ⟨kv, _, rfl⟩ := List.mem_map.mp he
    by_cases hb : containsA old kv.1 = true <;> simp [hb, evRank]
  · intro a ha b hb
    obtain ⟨kv, _, rfl⟩ := List.mem_map.mp ha
    obtain ⟨kw, _, rfl⟩ := List.mem_map.mp hb
    by_cases hb2 : containsA old kw.1 = true <;> simp [hb2, evRank]

/-- Dependency diff events have rank at most 1. -/
theorem pdc_events_rank_le (old : List (DepKey × DepValue))
    (shared : List (String × String)) (newIter : List (DepKey × DepValue)) :
    ∀ e ∈ (process_dependency_changes old shared newIter).events, evRank e ≤ 1 := by
  intro e he
  rw [pdc_events_eq] at he
  rcases List.mem_append.mp he with h | h
  · obtain ⟨kv, _, rfl⟩ := List.mem_map.mp h
    simp [evRank]
  · obtain ⟨kv, _, rfl⟩ := List.mem_map.mp h
    by_cases hb : containsA old kv.1 = true <;> simp [hb, evRank]

/-- C3 as amended: within one processed heartbeat response, events are
emitted in blocks — every `dependency_unavailable` before every
`dependency_available`/`dependency_changed`, those before every
`llm_tools_updated`, and those before every `llm_provider_available` —
for every iteration order of the underlying hash maps.  (The relative
order of available/changed events among themselves follows the hash map's
unspecified iteration order and is not constrained.) -/
theorem batch_event_block_order (topo : TopologyState)
    (shared : List (String × String)) (resp : HeartbeatResponse)
    (newIter : List (DepKey × DepValue)) :
    List.Pairwise (fun a b => evRank a ≤ evRank b)
      (process_heartbeat_response topo shared resp newIter).2.2 := by
  have hsplit : (process_heartbeat_response topo shared resp newIter).2.2 =
      (process_dependency_changes topo.dependencies shared newIter).events ++
      (process_llm_tools_changes topo.llm_tools resp.llm_tools).2 ++
      (process_llm_providers_changes topo.llm_providers resp.llm_providers).2 := rfl
  have hT : ∀ e ∈ (process_llm_tools_changes topo.llm_tools resp.llm_tools).2,
      evRank e = 2 := by
    intro e he
    rcases (llmTools_fold_frame resp.llm_tools (topo.llm_tools, [])).2.1 e he with
      h | ⟨fid, ts, _, rfl⟩
    · simp at h
    · rfl
  have hP : ∀ e ∈ (process_llm_providers_changes topo.llm_providers
      resp.llm_providers).2, evRank e = 3 := by
    intro e he
    rcases (llmProviders_fold_frame resp.llm_providers (topo.llm_providers, [])).2.1
      e he with h | ⟨info, _, rfl⟩
    · simp at h
    · rfl
  rw [hsplit]
  refine List.pairwise_append.mpr ⟨List.pairwise_append.mpr
    ⟨pdc_events_rank_order topo.dependencies shared newIter,
     pairwise_rank_const hT, ?_⟩, pairwise_rank_const hP, ?_⟩
  · intro a ha b hb
    rw [hT b hb]
    exact Nat.le_trans (pdc_events_rank_le topo.dependencies shared newIter a ha)
      (by omega)
  · intro a ha b hb
    rw [hP b hb]
    rcases List.mem_append.mp ha with h | h
    · exact Nat.le_trans (pdc_events_rank_le topo.dependencies shared newIter a h)
        (by omega)
    · rw [hT a h]
      omega

/-- Counterexample for C3's inner ordering: the reversed enumeration of
the two-provider `new_deps` map is a legitimate hash-map iteration order
(a permutation of the built map), and under it the two availability
events for requesting function `f` are emitted with positional index 1
before positional index 0 — not in positional-index order. -/
theorem batch_event_order_counterexample :
    exNewIterSwapped.Perm (buildNewDeps exResolved)
  ∧ (process_dependency_changes [] [] exNewIterSwapped).events =
      [MeshEvent.dependencyAvailable "c" "http://y" "slow" "a2" "f" 1,
       MeshEvent.dependencyAvailable "c" "http://x" "fast" "a1" "f" 0] := by
  constructor
  · decide
  · decide

/-- `agent_registered` is the only rank-4 event among the runtime's
emissions. -/
theorem isAgentRegistered_rank {e : MeshEvent}
    (h : isAgentRegisteredEv e = true) : evRank e = 4 := by
  cases e <;> first
  | rfl
  | simp [isAgentRegisteredEv] at h

/-- Processing a heartbeat response never emits `agent_registered`. -/
theorem phr_no_agentRegistered (topo : TopologyState)
    (shared : List (String × String)) (resp : HeartbeatResponse)
    (newIter : List (DepKey × DepValue)) :
    ∀ e ∈ (process_heartbeat_response topo shared resp newIter).2.2,
      isAgentRegisteredEv e = false := by
  intro e he
  cases hu : isAgentRegisteredEv e with
  | false => rfl
  | true =>
    exfalso
    have h4 := isAgentRegistered_rank hu
    have hsplit : (process_heartbeat_response topo shared resp newIter).2.2 =
        (process_dependency_changes topo.dependencies shared newIter).events ++
        (process_llm_tools_changes topo.llm_tools resp.llm_tools).2 ++
        (process_llm_providers_changes topo.llm_providers resp.llm_providers).2 := rfl
    rw [hsplit] at he
    rcases List.mem_append.mp he with h | h
    · rcases List.mem_append.mp h with h1 | h1
      · have := pdc_events_rank_le topo.dependencies shared newIter e h1
        omega
      · rcases (llmTools_fold_frame resp.llm_tools (topo.llm_tools, [])).2.1 e h1
          with h2 | ⟨fid, ts, _, rfl⟩
        · simp at h2
        · simp [evRank] at h4
    · rcases (llmProviders_fold_frame resp.llm_providers
        (topo.llm_providers, [])).2.1 e h with h2 | ⟨info, _, rfl⟩
      · simp at h2
      · simp [evRank] at h4

/-- Commands never touch the state machine. -/
theorem handle_command_machine (s : AgentRuntimeState) (c : RuntimeCommand) :
    (handle_command s c).machine = s.machine := by
  cases c <;> simp only [handle_command] <;> split <;> rfl

/-- Draining a command batch never touches the state machine. -/
theorem foldl_commands_machine (cmds : List RuntimeCommand) :
    ∀ s : AgentRuntimeState, (cmds.foldl handle_command s).machine = s.machine := by
  induction cmds with
  | nil => intro s; rfl
  | cons c rest ih =>
    intro s
    rw [List.foldl_cons, ih, handle_command_machine]

/-- A select wake preserves the heartbeat count and moves the state only
to `ShuttingDown` if anywhere. -/
theorem applyWake_machine (s : AgentRuntimeState) (w : WaitWake) :
    (applyWake s w).machine.heartbeat_count = s.machine.heartbeat_count ∧
    ((applyWake s w).machine.state = s.machine.state ∨
      (applyWake s w).machine.state = .ShuttingDown) := by
  cases w with
  | timer => exact ⟨rfl, Or.inl rfl⟩
  | shutdownWake => exact ⟨rfl, Or.inr rfl⟩
  | commandWake c =>
    rw [show (applyWake s (.commandWake c)).machine = (handle_command s c).machine
        from rfl, handle_command_machine]
    exact ⟨rfl, Or.inl rfl⟩

/-- Fast-heartbeat processing never decreases the heartbeat count. -/
theorem on_fast_count_mono (sm : HeartbeatStateMachine)
    (r : FastHeartbeatStatus) :
    sm.heartbeat_count ≤ (sm.on_fast_heartbeat_result r).1.heartbeat_count := by
  cases r <;> simp [HeartbeatStateMachine.on_fast_heartbeat_result] <;>
    split <;> simp

/-- Heartbeat-count effect of a full heartbeat: increment on success,
unchanged on failure. -/
theorem send_full_count (s : AgentRuntimeState)
    (outcome : Option HeartbeatResponse) (errMsg : String)
    (newIter : List (DepKey × DepValue)) :
    (send_full_heartbeat s outcome errMsg newIter).1.machine.heartbeat_count =
      (if outcome.isSome = true then s.machine.heartbeat_count + 1
       else s.machine.heartbeat_count) := by
  cases outcome <;>
    simp [send_full_heartbeat, HeartbeatStateMachine.on_full_heartbeat_success,
      HeartbeatStateMachine.on_full_heartbeat_failure] <;> split <;> rfl

/-- `agent_registered` count of a full heartbeat: exactly one when the
heartbeat succeeds and it is the machine's first counted heartbeat. -/
theorem send_full_countP (s : AgentRuntimeState)
    (outcome : Option HeartbeatResponse) (errMsg : String)
    (newIter : List (DepKey × DepValue)) :
    (send_full_heartbeat s outcome errMsg newIter).2.countP isAgentRegisteredEv =
      (if outcome.isSome = true ∧ s.machine.heartbeat_count = 0 then 1 else 0) := by
  cases outcome with
  | none =>
    simp [send_full_heartbeat, isAgentRegisteredEv]
  | some resp =>
    have hz : (process_heartbeat_response s.topology s.shared_deps resp
        newIter).2.2.countP isAgentRegisteredEv = 0 :=
      List.countP_eq_zero.mpr fun e he => by
        rw [phr_no_agentRegistered s.topology s.shared_deps resp newIter e he]
        simp
    by_cases hcount : s.machine.heartbeat_count = 0
    · have h1 : s.machine.on_full_heartbeat_success.heartbeat_count = 1 := by
        simp [HeartbeatStateMachine.on_full_heartbeat_success, hcount]
      simp [send_full_heartbeat, h1, hz, isAgentRegisteredEv, hcount]
    · have h1 : s.machine.on_full_heartbeat_success.heartbeat_count ≠ 1 := by
        simp [HeartbeatStateMachine.on_full_heartbeat_success]
        omega
      simp [send_full_heartbeat, h1, hz, hcount]

/-- A failed full heartbeat leaves the state unchanged or moves it to
`Reconnecting`. -/
theorem send_full_fail_state (s : AgentRuntimeState) (errMsg : String)
    (newIter : List (DepKey × DepValue)) :
    (send_full_heartbeat s none errMsg newIter).1.machine.state =
      s.machine.state ∨
    (send_full_heartbeat s none errMsg newIter).1.machine.state =
      HeartbeatState.Reconnecting := by
  simp only [send_full_heartbeat, HeartbeatStateMachine.on_full_heartbeat_failure]
  split
  · exact Or.inr rfl
  · exact Or.inl rfl

/-- `SendFast` is only proposed in the `Healthy`/`Degraded` states. -/
theorem next_action_SendFast_state (sm : HeartbeatStateMachine) (elapsed : Nat)
    (h : sm.next_action elapsed = .SendFast) :
    sm.state = .Healthy ∨ sm.state = .Degraded := by
  cases hs : sm.state with
  | Healthy => exact Or.inl rfl
  | Degraded => exact Or.inr rfl
  | Unregistered => simp [HeartbeatStateMachine.next_action, hs] at h
  | Registering => simp [HeartbeatStateMachine.next_action, hs] at h
  | Reconnecting => simp [HeartbeatStateMachine.next_action, hs] at h
  | ShuttingDown => simp [HeartbeatStateMachine.next_action, hs] at h

/-- `NoAction` is only proposed in the `ShuttingDown` state. -/
theorem next_action_NoAction_state (sm : HeartbeatStateMachine) (elapsed : Nat)
    (h : sm.next_action elapsed = .NoAction) :
    sm.state = .ShuttingDown := by
  cases hs : sm.state with
  | ShuttingDown => rfl
  | Healthy =>
    simp only [HeartbeatStateMachine.next_action, hs] at h
    split at h <;> simp at h
  | Degraded =>
    simp only [HeartbeatStateMachine.next_action, hs] at h
    split at h <;> simp at h
  | Unregistered => simp [HeartbeatStateMachine.next_action, hs] at h
  | Registering => simp [HeartbeatStateMachine.next_action, hs] at h
  | Reconnecting => simp [HeartbeatStateMachine.next_action, hs] at h

/-- Reduction of `runtimeStepCore` in the `SendFull` case. -/
theorem stepCore_eq_sendFull (s2 : AgentRuntimeState) (inp : IterInput)
    (h1 : ¬ s2.machine.state = HeartbeatState.ShuttingDown)
    (h2 : ¬ s2.force_full_heartbeat = true)
    (hact : s2.machine.next_action inp.elapsed = HeartbeatAction.SendFull) :
    runtimeStepCore s2 inp =
      ⟨(send_full_heartbeat s2 inp.fullOutcome inp.fullErr inp.newIter).1,
       (send_full_heartbeat s2 inp.fullOutcome inp.fullErr inp.newIter).2,
       inp.fullOutcome.isSome, true⟩ := by
  unfold runtimeStepCore
  rw [if_neg h1, if_neg h2, hact]

/-- Reduction of `runtimeStepCore` when a forced full heartbeat fires. -/
theorem stepCore_eq_forced (s2 : AgentRuntimeState) (inp : IterInput)
    (h1 : ¬ s2.machine.state = HeartbeatState.ShuttingDown)
    (h2 : s2.force_full_heartbeat = true) :
    runtimeStepCore s2 inp =
      ⟨(send_full_heartbeat { s2 with force_full_heartbeat := false }
          inp.fullOutcome inp.fullErr inp.newIter).1,
       (send_full_heartbeat { s2 with force_full_heartbeat := false }
          inp.fullOutcome inp.fullErr inp.newIter).2,
       inp.fullOutcome.isSome, true⟩ := by
  unfold runtimeStepCore
  rw [if_neg h1, if_pos h2]

/-- Reduction of `runtimeStepCore` in the `SendFast` case: either the fast
result demands a full heartbeat or the iteration only updates the
machine. -/
theorem stepCore_eq_sendFast (s2 : AgentRuntimeState) (inp : IterInput)
    (h1 : ¬ s2.machine.state = HeartbeatState.ShuttingDown)
    (h2 : ¬ s2.force_full_heartbeat = true)
    (hact : s2.machine.next_action inp.elapsed = HeartbeatAction.SendFast) :
    runtimeStepCore s2 inp =
      (if (s2.machine.on_fast_heartbeat_result inp.fastOutcome).2 =
          HeartbeatAction.SendFull then
        ⟨(send_full_heartbeat
            { s2 with machine := (s2.machine.on_fast_heartbeat_result
                inp.fastOutcome).1 } inp.fullOutcome inp.fullErr inp.newIter).1,
         (send_full_heartbeat
            { s2 with machine := (s2.machine.on_fast_heartbeat_result
                inp.fastOutcome).1 } inp.fullOutcome inp.fullErr inp.newIter).2,
         inp.fullOutcome.isSome, true⟩
      else
        ⟨{ s2 with machine := (s2.machine.on_fast_heartbeat_result
            inp.fastOutcome).1 }, [], false, true⟩) := by
  unfold runtimeStepCore
  rw [if_neg h1, if_neg h2, hact]

/-- Reduction of `runtimeStepCore` in the `Wait` case. -/
theorem stepCore_eq_wait (s2 : AgentRuntimeState) (inp : IterInput) (d : Nat)
    (h1 : ¬ s2.machine.state = HeartbeatState.ShuttingDown)
    (h2 : ¬ s2.force_full_heartbeat = true)
    (hact : s2.machine.next_action inp.elapsed = HeartbeatAction.Wait d) :
    runtimeStepCore s2 inp = ⟨applyWake s2 inp.wake, [], false, true⟩ := by
  unfold runtimeStepCore
  rw [if_neg h1, if_neg h2, hact]

/-- Reduction of `runtimeStepCore` in the `Retry` case. -/
theorem stepCore_eq_retry (s2 : AgentRuntimeState) (inp : IterInput)
    (a b : Nat)
    (h1 : ¬ s2.machine.state = HeartbeatState.ShuttingDown)
    (h2 : ¬ s2.force_full_heartbeat = true)
    (hact : s2.machine.next_action inp.elapsed = HeartbeatAction.Retry a b) :
    runtimeStepCore s2 inp =
      ⟨(send_full_heartbeat (applyWake s2 inp.wake) inp.fullOutcome inp.fullErr
          inp.newIter).1,
       (send_full_heartbeat (applyWake s2 inp.wake) inp.fullOutcome inp.fullErr
          inp.newIter).2,
       inp.fullOutcome.isSome, true⟩ := by
  unfold runtimeStepCore
  rw [if_neg h1, if_neg h2, hact]

/-- Reduction of `runtimeStepCore` in the `NoAction` case. -/
theorem stepCore_eq_noAction (s2 : AgentRuntimeState) (inp : IterInput)
    (h1 : ¬ s2.machine.state = HeartbeatState.ShuttingDown)
    (h2 : ¬ s2.force_full_heartbeat = true)
    (hact : s2.machine.next_action inp.elapsed = HeartbeatAction.NoAction) :
    runtimeStepCore s2 inp = ⟨s2, [], false, false⟩ := by
  unfold runtimeStepCore
  rw [if_neg h1, if_neg h2, hact]

/-- Reduction of `runtimeStepCore` when the machine is shutting down. -/
theorem stepCore_eq_stop (s2 : AgentRuntimeState) (inp : IterInput)
    (h1 : s2.machine.state = HeartbeatState.ShuttingDown) :
    runtimeStepCore s2 inp = ⟨s2, [], false, false⟩ := by
  unfold runtimeStepCore
  rw [if_pos h1]

/-- From a machine that has already counted a heartbeat, one loop
iteration emits no `agent_registered` and keeps the count positive. -/
theorem stepCore_from_pos (s2 : AgentRuntimeState) (inp : IterInput)
    (hc : 1 ≤ s2.machine.heartbeat_count) :
    (runtimeStepCore s2 inp).events.countP isAgentRegisteredEv = 0 ∧
    1 ≤ (runtimeStepCore s2 inp).st.machine.heartbeat_count := by
  have hne : ¬ s2.machine.heartbeat_count = 0 := by omega
  by_cases h1 : s2.machine.state = HeartbeatState.ShuttingDown
  · rw [stepCore_eq_stop s2 inp h1]
    exact ⟨rfl, hc⟩
  · by_cases h2 : s2.force_full_heartbeat = true
    · rw [stepCore_eq_forced s2 inp h1 h2]
      refine ⟨?_, ?_⟩
      · rw [show (StepResult.mk _ (send_full_heartbeat
            { s2 with force_full_heartbeat := false } inp.fullOutcome inp.fullErr
            inp.newIter).2 _ _).events = (send_full_heartbeat
            { s2 with force_full_heartbeat := false } inp.fullOutcome inp.fullErr
            inp.newIter).2 from rfl, send_full_countP]
        simp [hne]
      · rw [show (StepResult.mk (send_full_heartbeat
            { s2 with force_full_heartbeat := false } inp.fullOutcome inp.fullErr
            inp.newIter).1 _ _ _).st = (send_full_heartbeat
            { s2 with force_full_heartbeat := false } inp.fullOutcome inp.fullErr
            inp.newIter).1 from rfl, send_full_count]
        have hred : ({ s2 with force_full_heartbeat := false } :
            AgentRuntimeState).machine.heartbeat_count =
            s2.machine.heartbeat_count := rfl
        rw [hred]
        split <;> omega
    · cases hact : s2.machine.next_action inp.elapsed with
      | SendFull =>
        rw [stepCore_eq_sendFull s2 inp h1 h2 hact]
        refine ⟨?_, ?_⟩
        · rw [show (StepResult.mk _ (send_full_heartbeat s2 inp.fullOutcome
              inp.fullErr inp.newIter).2 _ _).events = (send_full_heartbeat s2
              inp.fullOutcome inp.fullErr inp.newIter).2 from rfl,
            send_full_countP]
          simp [hne]
        · rw [show (StepResult.mk (send_full_heartbeat s2 inp.fullOutcome
              inp.fullErr inp.newIter).1 _ _ _).st = (send_full_heartbeat s2
              inp.fullOutcome inp.fullErr inp.newIter).1 from rfl,
            send_full_count]
          split <;> omega
      | SendFast =>
        have hmono := on_fast_count_mono s2.machine inp.fastOutcome
        rw [stepCore_eq_sendFast s2 inp h1 h2 hact]
        by_cases hf : (s2.machine.on_fast_heartbeat_result inp.fastOutcome).2 =
            HeartbeatAction.SendFull
        · rw [if_pos hf]
          have hcnt3 : ¬ ({ s2 with machine := (s2.machine.on_fast_heartbeat_result
              inp.fastOutcome).1 } : AgentRuntimeState).machine.heartbeat_count = 0 := by
            show ¬ (s2.machine.on_fast_heartbeat_result
              inp.fastOutcome).1.heartbeat_count = 0
            omega
          refine ⟨?_, ?_⟩
          · rw [show (StepResult.mk _ (send_full_heartbeat
                { s2 with machine := (s2.machine.on_fast_heartbeat_result
                  inp.fastOutcome).1 } inp.fullOutcome inp.fullErr
                inp.newIter).2 _ _).events = (send_full_heartbeat
                { s2 with machine := (s2.machine.on_fast_heartbeat_result
                  inp.fastOutcome).1 } inp.fullOutcome inp.fullErr
                inp.newIter).2 from rfl, send_full_countP]
            simp only [hcnt3]
            simp
          · rw [show (StepResult.mk (send_full_heartbeat
                { s2 with machine := (s2.machine.on_fast_heartbeat_result
                  inp.fastOutcome).1 } inp.fullOutcome inp.fullErr
                inp.newIter).1 _ _ _).st = (send_full_heartbeat
                { s2 with machine := (s2.machine.on_fast_heartbeat_result
                  inp.fastOutcome).1 } inp.fullOutcome inp.fullErr
                inp.newIter).1 from rfl, send_full_count]
            have : 1 ≤ ({ s2 with machine := (s2.machine.on_fast_heartbeat_result
                inp.fastOutcome).1 } : AgentRuntimeState).machine.heartbeat_count := by
              show 1 ≤ (s2.machine.on_fast_heartbeat_result
                inp.fastOutcome).1.heartbeat_count
              omega
            split <;> omega
        · rw [if_neg hf]
          refine ⟨rfl, ?_⟩
          show 1 ≤ (s2.machine.on_fast_heartbeat_result
            inp.fastOutcome).1.heartbeat_count
          omega
      | Wait d =>
        have hw := applyWake_machine s2 inp.wake
        rw [stepCore_eq_wait s2 inp d h1 h2 hact]
        refine ⟨rfl, ?_⟩
        show 1 ≤ (applyWake s2 inp.wake).machine.heartbeat_count
        rw [hw.1]
        exact hc
      | Retry a b =>
        have hw := applyWake_machine s2 inp.wake
        have hwne : ¬ (applyWake s2 inp.wake).machine.heartbeat_count = 0 := by
          rw [hw.1]
          omega
        rw [stepCore_eq_retry s2 inp a b h1 h2 hact]
        refine ⟨?_, ?_⟩
        · rw [show (StepResult.mk _ (send_full_heartbeat (applyWake s2 inp.wake)
              inp.fullOutcome inp.fullErr inp.newIter).2 _ _).events =
              (send_full_heartbeat (applyWake s2 inp.wake) inp.fullOutcome
              inp.fullErr inp.newIter).2 from rfl, send_full_countP]
          simp [hwne]
        · rw [show (StepResult.mk (send_full_heartbeat (applyWake s2 inp.wake)
              inp.fullOutcome inp.fullErr inp.newIter).1 _ _ _).st =
              (send_full_heartbeat (applyWake s2 inp.wake) inp.fullOutcome
              inp.fullErr inp.newIter).1 from rfl, send_full_count]
          rw [hw.1]
          split <;> omega
      | NoAction =>
        rw [stepCore_eq_noAction s2 inp h1 h2 hact]
        exact ⟨rfl, hc⟩

/-- A full heartbeat from a zero-count, non-Healthy/Degraded machine:
one `agent_registered` exactly when the POST succeeds; on failure the
count stays zero and the state stays outside Healthy/Degraded. -/
theorem send_full_from_zero (s : AgentRuntimeState)
    (outcome : Option HeartbeatResponse) (errMsg : String)
    (newIter : List (DepKey × DepValue))
    (hc0 : s.machine.heartbeat_count = 0)
    (hH : ¬ s.machine.state = HeartbeatState.Healthy)
    (hD : ¬ s.machine.state = HeartbeatState.Degraded) :
    (send_full_heartbeat s outcome errMsg newIter).2.countP isAgentRegisteredEv =
      (if outcome.isSome then 1 else 0) ∧
    (outcome.isSome = true →
      1 ≤ (send_full_heartbeat s outcome errMsg newIter).1.machine.heartbeat_count) ∧
    (outcome.isSome = false →
      (send_full_heartbeat s outcome errMsg newIter).1.machine.heartbeat_count = 0 ∧
      ¬ (send_full_heartbeat s outcome errMsg newIter).1.machine.state =
          HeartbeatState.Healthy ∧
      ¬ (send_full_heartbeat s outcome errMsg newIter).1.machine.state =
          HeartbeatState.Degraded) := by
  refine ⟨?_, ?_, ?_⟩
  · rw [send_full_countP]
    simp [hc0]
  · intro hS
    rw [send_full_count, if_pos hS]
    omega
  · intro hF
    cases outcome with
    | some r => simp at hF
    | none =>
      refine ⟨?_, ?_, ?_⟩
      · rw [send_full_count]
        simp [hc0]
      · rcases send_full_fail_state s errMsg newIter with h | h
        · rw [h]; exact hH
        · rw [h]; decide
      · rcases send_full_fail_state s errMsg newIter with h | h
        · rw [h]; exact hD
        · rw [h]; decide

/-- From a zero-count machine outside Healthy/Degraded, one dispatch emits
`agent_registered` exactly when it performs a successful full heartbeat;
otherwise the zero-count invariant is preserved. -/
theorem stepCore_from_zero (s2 : AgentRuntimeState) (inp : IterInput)
    (hc0 : s2.machine.heartbeat_count = 0)
    (hH : ¬ s2.machine.state = HeartbeatState.Healthy)
    (hD : ¬ s2.machine.state = HeartbeatState.Degraded) :
    (runtimeStepCore s2 inp).events.countP isAgentRegisteredEv =
      (if (runtimeStepCore s2 inp).fullSuccess then 1 else 0) ∧
    ((runtimeStepCore s2 inp).fullSuccess = true →
      1 ≤ (runtimeStepCore s2 inp).st.machine.heartbeat_count) ∧
    ((runtimeStepCore s2 inp).fullSuccess = false →
      (runtimeStepCore s2 inp).st.machine.heartbeat_count = 0 ∧
      ¬ (runtimeStepCore s2 inp).st.machine.state = HeartbeatState.Healthy ∧
      ¬ (runtimeStepCore s2 inp).st.machine.state = HeartbeatState.Degraded) := by
  by_cases h1 : s2.machine.state = HeartbeatState.ShuttingDown
  · rw [stepCore_eq_stop s2 inp h1]
    refine ⟨by simp, by simp, fun _ => ⟨hc0, hH, hD⟩⟩
  · by_cases h2 : s2.force_full_heartbeat = true
    · rw [stepCore_eq_forced s2 inp h1 h2]
      exact send_full_from_zero { s2 with force_full_heartbeat := false }
        inp.fullOutcome inp.fullErr inp.newIter hc0 hH hD
    · cases hact : s2.machine.next_action inp.elapsed with
      | SendFull =>
        rw [stepCore_eq_sendFull s2 inp h1 h2 hact]
        exact send_full_from_zero s2 inp.fullOutcome inp.fullErr inp.newIter
          hc0 hH hD
      | SendFast =>
        rcases next_action_SendFast_state s2.machine inp.elapsed hact with h | h
        · exact absurd h hH
        · exact absurd h hD
      | Wait d =>
        rw [stepCore_eq_wait s2 inp d h1 h2 hact]
        have hw := applyWake_machine s2 inp.wake
        refine ⟨by simp, by simp, fun _ => ?_⟩
        refine ⟨?_, ?_, ?_⟩
        · show (applyWake s2 inp.wake).machine.heartbeat_count = 0
          rw [hw.1]; exact hc0
        · show ¬ (applyWake s2 inp.wake).machine.state = HeartbeatState.Healthy
          rcases hw.2 with h | h
          · rw [h]; exact hH
          · rw [h]; decide
        · show ¬ (applyWake s2 inp.wake).machine.state = HeartbeatState.Degraded
          rcases hw.2 with h | h
          · rw [h]; exact hD
          · rw [h]; decide
      | Retry a b =>
        rw [stepCore_eq_retry s2 inp a b h1 h2 hact]
        have hw := applyWake_machine s2 inp.wake
        have hcA : (applyWake s2 inp.wake).machine.heartbeat_count = 0 := by
          rw [hw.1]; exact hc0
        have hHA : ¬ (applyWake s2 inp.wake).machine.state =
            HeartbeatState.Healthy := by
          rcases hw.2 with h | h
          · rw [h]; exact hH
          · rw [h]; decide
        have hDA : ¬ (applyWake s2 inp.wake).machine.state =
            HeartbeatState.Degraded := by
          rcases hw.2 with h | h
          · rw [h]; exact hD
          · rw [h]; decide
        exact send_full_from_zero (applyWake s2 inp.wake) inp.fullOutcome
          inp.fullErr inp.newIter hcA hHA hDA
      | NoAction =>
        rw [stepCore_eq_noAction s2 inp h1 h2 hact]
        refine ⟨by simp, by simp, fun _ => ⟨hc0, hH, hD⟩⟩

/-- The machine state seen by the dispatch equals the pre-iteration
machine, with the shutdown probe applied when the signal fired (the
command drain never touches the machine). -/
theorem step_pre_machine (s0 : AgentRuntimeState) (inp : IterInput) :
    (inp.commands.foldl handle_command
      (if inp.shutdownSignal then { s0 with machine := s0.machine.shutdown }
       else s0)).machine =
    (if inp.shutdownSignal then s0.machine.shutdown else s0.machine) := by
  rw [foldl_commands_machine]
  by_cases hs : inp.shutdownSignal = true
  · rw [if_pos hs, if_pos hs]
  · rw [if_neg hs, if_neg hs]

/-- `stepCore_from_pos` lifted through the shutdown probe and command
drain to a whole `runtimeStep` iteration. -/
theorem step_from_pos (s0 : AgentRuntimeState) (inp : IterInput)
    (hc : 1 ≤ s0.machine.heartbeat_count) :
    (runtimeStep s0 inp).events.countP isAgentRegisteredEv = 0 ∧
    1 ≤ (runtimeStep s0 inp).st.machine.heartbeat_count := by
  unfold runtimeStep
  apply stepCore_from_pos
  rw [step_pre_machine]
  by_cases hs : inp.shutdownSignal = true
  · rw [if_pos hs]; exact hc
  · rw [if_neg hs]; exact hc

/-- `stepCore_from_zero` lifted through the shutdown probe and command
drain to a whole `runtimeStep` iteration. -/
theorem step_from_zero (s0 : AgentRuntimeState) (inp : IterInput)
    (hc0 : s0.machine.heartbeat_count = 0)
    (hH : ¬ s0.machine.state = HeartbeatState.Healthy)
    (hD : ¬ s0.machine.state = HeartbeatState.Degraded) :
    (runtimeStep s0 inp).events.countP isAgentRegisteredEv =
      (if (runtimeStep s0 inp).fullSuccess then 1 else 0) ∧
    ((runtimeStep s0 inp).fullSuccess = true →
      1 ≤ (runtimeStep s0 inp).st.machine.heartbeat_count) ∧
    ((runtimeStep s0 inp).fullSuccess = false →
      (runtimeStep s0 inp).st.machine.heartbeat_count = 0 ∧
      ¬ (runtimeStep s0 inp).st.machine.state = HeartbeatState.Healthy ∧
      ¬ (runtimeStep s0 inp).st.machine.state = HeartbeatState.Degraded) := by
  unfold runtimeStep
  apply stepCore_from_zero
  · rw [step_pre_machine]
    by_cases hs : inp.shutdownSignal = true
    · rw [if_pos hs]; exact hc0
    · rw [if_neg hs]; exact hc0
  · rw [step_pre_machine]
    by_cases hs : inp.shutdownSignal = true
    · rw [if_pos hs]
      show ¬ HeartbeatState.ShuttingDown = HeartbeatState.Healthy
      decide
    · rw [if_neg hs]; exact hH
  · rw [step_pre_machine]
    by_cases hs : inp.shutdownSignal = true
    · rw [if_pos hs]
      show ¬ HeartbeatState.ShuttingDown = HeartbeatState.Degraded
      decide
    · rw [if_neg hs]; exact hD

/-- Reduction of `runtimeRun` on a continuing iteration. -/
theorem runtimeRun_cons_cont (s : AgentRuntimeState) (inp : IterInput)
    (rest : List IterInput) (h : (runtimeStep s inp).cont = true) :
    runtimeRun s (inp :: rest) =
      ⟨(runtimeRun (runtimeStep s inp).st rest).st,
       (runtimeStep s inp).events ++
         (runtimeRun (runtimeStep s inp).st rest).events,
       (if (runtimeStep s inp).fullSuccess then 1 else 0) +
         (runtimeRun (runtimeStep s inp).st rest).successes⟩ := by
  simp only [runtimeRun]
  rw [if_pos h]

/-- Reduction of `runtimeRun` on a breaking iteration: the trailing
`shutdown` event is appended. -/
theorem runtimeRun_cons_stop (s : AgentRuntimeState) (inp : IterInput)
    (rest : List IterInput) (h : (runtimeStep s inp).cont = false) :
    runtimeRun s (inp :: rest) =
      ⟨(runtimeStep s inp).st,
       (runtimeStep s inp).events ++ [MeshEvent.shutdownEvent],
       if (runtimeStep s inp).fullSuccess then 1 else 0⟩ := by
  simp only [runtimeRun]
  rw [if_neg (by simp [h])]

/-- Once the heartbeat count is positive, no run suffix ever emits another
`agent_registered`. -/
theorem run_from_pos (inputs : List IterInput) :
    ∀ s : AgentRuntimeState, 1 ≤ s.machine.heartbeat_count →
      (runtimeRun s inputs).events.countP isAgentRegisteredEv = 0 := by
  induction inputs with
  | nil => intro s _; rfl
  | cons inp rest ih =>
    intro s hc
    have hstep := step_from_pos s inp hc
    by_cases hcont : (runtimeStep s inp).cont = true
    · rw [runtimeRun_cons_cont s inp rest hcont]
      show ((runtimeStep s inp).events ++
        (runtimeRun (runtimeStep s inp).st rest).events).countP
          isAgentRegisteredEv = 0
      rw [List.countP_append, hstep.1, ih _ hstep.2]
    · rw [runtimeRun_cons_stop s inp rest (by simpa using hcont)]
      show ((runtimeStep s inp).events ++
        [MeshEvent.shutdownEvent]).countP isAgentRegisteredEv = 0
      rw [List.countP_append, hstep.1]
      rfl

/-- From a zero-count state outside Healthy/Degraded, the run emits
`agent_registered` exactly `min 1 successes` times. -/
theorem run_from_zero (inputs : List IterInput) :
    ∀ s : AgentRuntimeState, s.machine.heartbeat_count = 0 →
      ¬ s.machine.state = HeartbeatState.Healthy →
      ¬ s.machine.state = HeartbeatState.Degraded →
      (runtimeRun s inputs).events.countP isAgentRegisteredEv =
        min 1 (runtimeRun s inputs).successes := by
  induction inputs with
  | nil => intro s _ _ _; rfl
  | cons inp rest ih =>
    intro s hc0 hH hD
    have hstep := step_from_zero s inp hc0 hH hD
    by_cases hcont : (runtimeStep s inp).cont = true
    · rw [runtimeRun_cons_cont s inp rest hcont]
      show ((runtimeStep s inp).events ++
          (runtimeRun (runtimeStep s inp).st rest).events).countP
            isAgentRegisteredEv =
        min 1 ((if (runtimeStep s inp).fullSuccess then 1 else 0) +
          (runtimeRun (runtimeStep s inp).st rest).successes)
      cases hfs : (runtimeStep s inp).fullSuccess with
      | true =>
        have hrest := run_from_pos rest (runtimeStep s inp).st (hstep.2.1 hfs)
        rw [List.countP_append, hstep.1, hrest, hfs]
        simp
      | false =>
        obtain ⟨hc', hH', hD'⟩ := hstep.2.2 hfs
        rw [List.countP_append, hstep.1, ih _ hc' hH' hD', hfs]
        simp
    · rw [runtimeRun_cons_stop s inp rest (by simpa using hcont)]
      show ((runtimeStep s inp).events ++
          [MeshEvent.shutdownEvent]).countP isAgentRegisteredEv =
        min 1 (if (runtimeStep s inp).fullSuccess then 1 else 0)
      cases hfs : (runtimeStep s inp).fullSuccess with
      | true =>
        rw [List.countP_append, hstep.1, hfs]
        rfl
      | false =>
        rw [List.countP_append, hstep.1, hfs]
        rfl

/-- C2: over any whole runtime lifetime — any shutdown probes, command
batches, fast/full heartbeat outcomes (including registry restarts that
answer later heartbeats as if re-registering), waits, retries and select
wakeups — the runtime emits the `agent_registered` event exactly once if
at least one full heartbeat POST succeeds (namely at the first success,
when the machine's heartbeat count becomes 1) and never otherwise; in
particular it is never re-emitted after a re-registration. -/
theorem agent_registered_exactly_once (name : String) (tools : List ToolSpec)
    (port : Nat) (cfg : HeartbeatConfig) (inputs : List IterInput) :
    (runtimeRun (AgentRuntimeState.new name tools port cfg) inputs).events.countP
        isAgentRegisteredEv =
      min 1 (runtimeRun (AgentRuntimeState.new name tools port cfg)
        inputs).successes :=
  run_from_zero inputs (AgentRuntimeState.new name tools port cfg) rfl
    (by show ¬ HeartbeatState.Unregistered = HeartbeatState.Healthy; decide)
    (by show ¬ HeartbeatState.Unregistered = HeartbeatState.Degraded; decide)
